import Mathlib

/-!
# BCM2837 board emulation (`src/bcm2837.c`)

A shallow embedding of the peripheral emulation layer: the board state, the
interrupt-controller, AUX / mini-UART and system-timer register handlers, the
MMIO dispatcher, the timer tick and the IRQ query.

Machine integers are natural numbers; every store into a C field truncates to
the width of the field (`% 2 ^ w`).  A C function that may mutate the board
state and returns a value is a function to a pair `(value, state)`.
-/

namespace Bcm2837

/-! ## Machine words -/

/-- Bitwise complement of a 32-bit operand (`~x` on `unsigned int` / `int`). -/
def not32 (x : Nat) : Nat := (x % 2 ^ 32) ^^^ 0xffffffff

/-- Bitwise complement of a 64-bit operand (`~x` on `unsigned long`). -/
def not64 (x : Nat) : Nat := (x % 2 ^ 64) ^^^ 0xffffffffffffffff

/-- The macro `BIT(v, n)`, that is `(v) & (1 << (n))`. -/
def BIT (v n : Nat) : Nat := v &&& (1 <<< n)

/-- A C truth value as an `int`. -/
def b2n (b : Bool) : Nat := if b then 1 else 0

/-! ## Register map and collaborators that are not in the sources -/

/-- The register addresses of `peripherals/irq.h`, `peripherals/timer.h` and
`peripherals/mini_uart.h`, the capacity of a byte queue, and the indeterminate
content of the uninitialised local `data` of `handle_aux_read`.  None of the
headers is among the sources, so they are parameters of the embedding. -/
structure Config where
  TIMER_CS : Nat
  TIMER_CLO : Nat
  TIMER_CHI : Nat
  TIMER_C0 : Nat
  TIMER_C1 : Nat
  TIMER_C2 : Nat
  TIMER_C3 : Nat
  IRQ_BASIC_PENDING : Nat
  IRQ_PENDING_1 : Nat
  IRQ_PENDING_2 : Nat
  FIQ_CONTROL : Nat
  ENABLE_IRQS_1 : Nat
  ENABLE_IRQS_2 : Nat
  ENABLE_BASIC_IRQS : Nat
  DISABLE_IRQS_1 : Nat
  DISABLE_IRQS_2 : Nat
  DISABLE_BASIC_IRQS : Nat
  AUX_IRQ : Nat
  AUX_ENABLES : Nat
  AUX_MU_IO_REG : Nat
  AUX_MU_IER_REG : Nat
  AUX_MU_IIR_REG : Nat
  AUX_MU_LCR_REG : Nat
  AUX_MU_MCR_REG : Nat
  AUX_MU_LSR_REG : Nat
  AUX_MU_MSR_REG : Nat
  AUX_MU_SCRATCH : Nat
  AUX_MU_CNTL_REG : Nat
  AUX_MU_STAT_REG : Nat
  AUX_MU_BAUD_REG : Nat
  FIFO_SIZE : Nat
  uninit_data : Nat
deriving DecidableEq, Repr

/-- The register map has the order of the BCM2837 layout: the system-timer
block, then the interrupt-controller block, then the AUX block, each block
ascending in the order of its header; every address is an `unsigned long`. -/
def Config.WF (C : Config) : Prop :=
  C.TIMER_CS < C.TIMER_CLO ∧ C.TIMER_CLO < C.TIMER_CHI ∧ C.TIMER_CHI < C.TIMER_C0 ∧
  C.TIMER_C0 < C.TIMER_C1 ∧ C.TIMER_C1 < C.TIMER_C2 ∧ C.TIMER_C2 < C.TIMER_C3 ∧
  C.TIMER_C3 < C.IRQ_BASIC_PENDING ∧
  C.IRQ_BASIC_PENDING < C.IRQ_PENDING_1 ∧ C.IRQ_PENDING_1 < C.IRQ_PENDING_2 ∧
  C.IRQ_PENDING_2 < C.FIQ_CONTROL ∧ C.FIQ_CONTROL < C.ENABLE_IRQS_1 ∧
  C.ENABLE_IRQS_1 < C.ENABLE_IRQS_2 ∧ C.ENABLE_IRQS_2 < C.ENABLE_BASIC_IRQS ∧
  C.ENABLE_BASIC_IRQS < C.DISABLE_IRQS_1 ∧ C.DISABLE_IRQS_1 < C.DISABLE_IRQS_2 ∧
  C.DISABLE_IRQS_2 < C.DISABLE_BASIC_IRQS ∧
  C.DISABLE_BASIC_IRQS < C.AUX_IRQ ∧
  C.AUX_IRQ < C.AUX_ENABLES ∧ C.AUX_ENABLES < C.AUX_MU_IO_REG ∧
  C.AUX_MU_IO_REG < C.AUX_MU_IER_REG ∧ C.AUX_MU_IER_REG < C.AUX_MU_IIR_REG ∧
  C.AUX_MU_IIR_REG < C.AUX_MU_LCR_REG ∧ C.AUX_MU_LCR_REG < C.AUX_MU_MCR_REG ∧
  C.AUX_MU_MCR_REG < C.AUX_MU_LSR_REG ∧ C.AUX_MU_LSR_REG < C.AUX_MU_MSR_REG ∧
  C.AUX_MU_MSR_REG < C.AUX_MU_SCRATCH ∧ C.AUX_MU_SCRATCH < C.AUX_MU_CNTL_REG ∧
  C.AUX_MU_CNTL_REG < C.AUX_MU_STAT_REG ∧ C.AUX_MU_STAT_REG < C.AUX_MU_BAUD_REG ∧
  C.AUX_MU_BAUD_REG < 2 ^ 64

instance (C : Config) : Decidable C.WF := by
  unfold Config.WF; infer_instance

/-- Modelled from the spec: the literal BCM2837 register layout (peripheral
base `0x3F000000`) of the missing headers, with the reference queue depth 8
and 0 for the uninitialised `data`. -/
def bcm2837_config : Config where
  TIMER_CS := 0x3F003000
  TIMER_CLO := 0x3F003004
  TIMER_CHI := 0x3F003008
  TIMER_C0 := 0x3F00300C
  TIMER_C1 := 0x3F003010
  TIMER_C2 := 0x3F003014
  TIMER_C3 := 0x3F003018
  IRQ_BASIC_PENDING := 0x3F00B200
  IRQ_PENDING_1 := 0x3F00B204
  IRQ_PENDING_2 := 0x3F00B208
  FIQ_CONTROL := 0x3F00B20C
  ENABLE_IRQS_1 := 0x3F00B210
  ENABLE_IRQS_2 := 0x3F00B214
  ENABLE_BASIC_IRQS := 0x3F00B218
  DISABLE_IRQS_1 := 0x3F00B21C
  DISABLE_IRQS_2 := 0x3F00B220
  DISABLE_BASIC_IRQS := 0x3F00B224
  AUX_IRQ := 0x3F215000
  AUX_ENABLES := 0x3F215004
  AUX_MU_IO_REG := 0x3F215040
  AUX_MU_IER_REG := 0x3F215044
  AUX_MU_IIR_REG := 0x3F215048
  AUX_MU_LCR_REG := 0x3F21504C
  AUX_MU_MCR_REG := 0x3F215050
  AUX_MU_LSR_REG := 0x3F215054
  AUX_MU_MSR_REG := 0x3F215058
  AUX_MU_SCRATCH := 0x3F21505C
  AUX_MU_CNTL_REG := 0x3F215060
  AUX_MU_STAT_REG := 0x3F215064
  AUX_MU_BAUD_REG := 0x3F215068
  FIFO_SIZE := 8
  uninit_data := 0

/-- Modelled from the spec: the bounded byte queue of `fifo.h`, which is not
among the sources.  The front of the queue is the head of the list. -/
structure fifo where
  items : List Nat
deriving DecidableEq, Repr

/-- Modelled from the spec: `create()` of the byte queue gives an empty queue. -/
def create_fifo : fifo := ⟨[]⟩

/-- Modelled from the spec: `is_empty` of the byte queue. -/
def is_empty_fifo (q : fifo) : Bool := q.items.isEmpty

/-- Modelled from the spec: `used_count` of the byte queue. -/
def used_of_fifo (q : fifo) : Nat := q.items.length

/-- Modelled from the spec: `is_full` of the byte queue, whose capacity is
the parameter `FIFO_SIZE`. -/
def is_full_fifo (C : Config) (q : fifo) : Bool := decide (C.FIFO_SIZE ≤ q.items.length)

/-- Modelled from the spec: `enqueue(byte) -> ok|overrun` of the byte queue;
a byte offered to a full queue is dropped.  The flag is `true` for `ok`. -/
def enqueue_fifo (C : Config) (q : fifo) (b : Nat) : fifo × Bool :=
  if is_full_fifo C q then (q, false) else (⟨q.items ++ [b]⟩, true)

/-- Modelled from the spec: `dequeue() -> byte|empty` of the byte queue. -/
def dequeue_fifo (q : fifo) : Option (Nat × fifo) :=
  match q.items with
  | [] => none
  | b :: rest => some (b, ⟨rest⟩)

/-- Modelled from the spec: `clear` of the byte queue. -/
def clear_fifo (_q : fifo) : fifo := ⟨[]⟩

/-! ## Board state (`struct bcm2837_state`) -/

/-- The member `intctrl` of `struct bcm2837_state`. -/
structure intctrl_state where
  irq_enabled : List Nat
  fiq_control : Nat
  irqs_1_enabled : Nat
  irqs_2_enabled : Nat
  basic_irqs_enabled : Nat
deriving DecidableEq, Repr

/-- The member `aux` of `struct bcm2837_state`; the two queue pointers are
the queues themselves. -/
structure aux_state where
  mu_tx_fifo : fifo
  mu_rx_fifo : fifo
  mu_rx_overrun : Nat
  aux_enables : Nat
  aux_mu_io : Nat
  aux_mu_ier : Nat
  aux_mu_lcr : Nat
  aux_mu_mcr : Nat
  aux_mu_msr : Nat
  aux_mu_scratch : Nat
  aux_mu_cntl : Nat
  aux_mu_baud : Nat
deriving DecidableEq, Repr

/-- The member `systimer` of `struct bcm2837_state`. -/
structure systimer_state where
  cs : Nat
  counter : Nat
  c0 : Nat
  c1 : Nat
  c2 : Nat
  c3 : Nat
deriving DecidableEq, Repr

/-- The board state `struct bcm2837_state`. -/
structure bcm2837_state where
  intctrl : intctrl_state
  aux : aux_state
  systimer : systimer_state
deriving DecidableEq, Repr

/-- Every field holds a value of its C type (`uint8_t`, `uint16_t`,
`uint32_t`, `uint64_t`); the sticky overrun flag `mu_rx_overrun` is 0 or 1,
the only values the emulation stores or reports for it. -/
def bcm2837_state.WF (s : bcm2837_state) : Prop :=
  s.intctrl.irq_enabled.length = 72 ∧ (∀ x ∈ s.intctrl.irq_enabled, x < 2 ^ 8) ∧
  s.intctrl.fiq_control < 2 ^ 8 ∧ s.intctrl.irqs_1_enabled < 2 ^ 32 ∧
  s.intctrl.irqs_2_enabled < 2 ^ 32 ∧ s.intctrl.basic_irqs_enabled < 2 ^ 8 ∧
  s.aux.mu_rx_overrun ≤ 1 ∧ s.aux.aux_enables < 2 ^ 8 ∧ s.aux.aux_mu_io < 2 ^ 8 ∧
  s.aux.aux_mu_ier < 2 ^ 8 ∧ s.aux.aux_mu_lcr < 2 ^ 8 ∧ s.aux.aux_mu_mcr < 2 ^ 8 ∧
  s.aux.aux_mu_msr < 2 ^ 8 ∧ s.aux.aux_mu_scratch < 2 ^ 8 ∧ s.aux.aux_mu_cntl < 2 ^ 8 ∧
  s.aux.aux_mu_baud < 2 ^ 16 ∧
  s.systimer.cs < 2 ^ 32 ∧ s.systimer.counter < 2 ^ 64 ∧ s.systimer.c0 < 2 ^ 32 ∧
  s.systimer.c1 < 2 ^ 32 ∧ s.systimer.c2 < 2 ^ 32 ∧ s.systimer.c3 < 2 ^ 32

instance (s : bcm2837_state) : Decidable s.WF := by
  unfold bcm2837_state.WF; infer_instance

/-- The constant `initial_state`, with the two queues that
`bcm2837_initialize` creates. -/
def initial_state : bcm2837_state where
  intctrl :=
    { irq_enabled := List.replicate 72 0
      fiq_control := 0x0
      irqs_1_enabled := 0x0
      irqs_2_enabled := 0x0
      basic_irqs_enabled := 0x0 }
  aux :=
    { mu_tx_fifo := create_fifo
      mu_rx_fifo := create_fifo
      mu_rx_overrun := 0
      aux_enables := 0x0
      aux_mu_io := 0x0
      aux_mu_ier := 0x0
      aux_mu_lcr := 0x0
      aux_mu_mcr := 0x0
      aux_mu_msr := 0x10
      aux_mu_scratch := 0x0
      aux_mu_cntl := 0x3
      aux_mu_baud := 0x0 }
  systimer :=
    { cs := 0x0
      counter := 0x0
      c0 := 0x0
      c1 := 0x0
      c2 := 0x0
      c3 := 0x0 }

/-! ## Address ranges -/

/-- The macro `ADDR_IN_INTCTRL`. -/
def ADDR_IN_INTCTRL (C : Config) (a : Nat) : Bool :=
  decide (a ≥ C.IRQ_BASIC_PENDING) && decide (a ≤ C.DISABLE_BASIC_IRQS)

/-- The macro `ADDR_IN_AUX`. -/
def ADDR_IN_AUX (C : Config) (a : Nat) : Bool :=
  decide (a ≥ C.AUX_IRQ) && decide (a ≤ C.AUX_MU_BAUD_REG)

/-- The macro `ADDR_IN_AUX_MU`. -/
def ADDR_IN_AUX_MU (C : Config) (a : Nat) : Bool :=
  decide (a ≥ C.AUX_MU_IO_REG) && decide (a ≤ C.AUX_MU_BAUD_REG)

/-- The macro `ADDR_IN_SYSTIMER`. -/
def ADDR_IN_SYSTIMER (C : Config) (a : Nat) : Bool :=
  decide (a ≥ C.TIMER_CS) && decide (a ≤ C.TIMER_C3)

/-- The constant `LCR_DLAB`. -/
def LCR_DLAB : Nat := 0x80

/-! ## AUX / mini-UART registers -/

/-- The body of `case AUX_MU_IIR_REG` of `handle_aux_read`: the synthesized
interrupt-identification value. -/
def aux_mu_iir_value (s : bcm2837_state) : Nat :=
  let tx_int := b2n (decide (s.aux.aux_mu_ier &&& 0x2 ≠ 0) && is_empty_fifo s.aux.mu_tx_fifo)
  let rx_int := b2n (decide (s.aux.aux_mu_ier &&& 0x1 ≠ 0) && !is_empty_fifo s.aux.mu_rx_fifo)
  let int_id := tx_int ||| (rx_int <<< 1)
  let int_id := if int_id = 0x3 then 0x1 else int_id
  b2n (decide (int_id = 0)) ||| (int_id <<< 1) ||| (0x3 <<< 6)

/-- The nested call `handle_aux_read(tsk, AUX_MU_IIR_REG)` made by
`case AUX_IRQ`: the gate of the handler, then the label `AUX_MU_IIR_REG`
(the labels of a C `switch` are pairwise distinct).  The call leaves the
state as it is. -/
def handle_aux_read_iir (C : Config) (s : bcm2837_state) : Nat :=
  if s.aux.aux_enables &&& 1 = 0 ∧ ADDR_IN_AUX_MU C C.AUX_MU_IIR_REG = true then 0
  else aux_mu_iir_value s

/-- The function `handle_aux_read`; the result is the returned value and the
state after the call. -/
def handle_aux_read (C : Config) (s : bcm2837_state) (addr : Nat) : Nat × bcm2837_state :=
  if s.aux.aux_enables &&& 1 = 0 ∧ ADDR_IN_AUX_MU C addr = true then (0, s)
  else if addr = C.AUX_IRQ then
    -- `&&` evaluates the nested read only when the enable bit is set
    let mu_pending :=
      b2n (decide (s.aux.aux_enables &&& 0x1 ≠ 0) &&
        decide (not64 (handle_aux_read_iir C s &&& 0x1) ≠ 0))
    (mu_pending, s)
  else if addr = C.AUX_ENABLES then (s.aux.aux_enables, s)
  else if addr = C.AUX_MU_IO_REG then
    if s.aux.aux_mu_lcr &&& LCR_DLAB ≠ 0 then
      (s.aux.aux_mu_baud &&& 0xff,
        { s with aux := { s.aux with aux_mu_lcr := (s.aux.aux_mu_lcr &&& not32 LCR_DLAB) % 2 ^ 8 } })
    else
      match dequeue_fifo s.aux.mu_rx_fifo with
      | some (data, q) => (data, { s with aux := { s.aux with mu_rx_fifo := q } })
      | none => (C.uninit_data, s)
  else if addr = C.AUX_MU_IER_REG then
    if s.aux.aux_mu_lcr &&& LCR_DLAB ≠ 0 then (s.aux.aux_mu_baud >>> 8, s)
    else (s.aux.aux_mu_ier, s)
  else if addr = C.AUX_MU_IIR_REG then (aux_mu_iir_value s, s)
  else if addr = C.AUX_MU_LCR_REG then (s.aux.aux_mu_lcr, s)
  else if addr = C.AUX_MU_MCR_REG then (s.aux.aux_mu_mcr, s)
  else if addr = C.AUX_MU_LSR_REG then
    let dready := b2n (!is_empty_fifo s.aux.mu_rx_fifo)
    let rx_overrun := s.aux.mu_rx_overrun
    let tx_empty := b2n (!is_full_fifo C s.aux.mu_tx_fifo)
    let tx_idle := b2n (is_empty_fifo s.aux.mu_tx_fifo)
    (dready ||| (rx_overrun <<< 1) ||| (tx_empty <<< 5) ||| (tx_idle <<< 6),
      { s with aux := { s.aux with mu_rx_overrun := 0 } })
  else if addr = C.AUX_MU_MSR_REG then (s.aux.aux_mu_msr, s)
  else if addr = C.AUX_MU_SCRATCH then (s.aux.aux_mu_scratch, s)
  else if addr = C.AUX_MU_CNTL_REG then (s.aux.aux_mu_cntl, s)
  else if addr = C.AUX_MU_STAT_REG then
    let sym_avail := b2n (!is_empty_fifo s.aux.mu_rx_fifo)
    let space_avail := b2n (!is_full_fifo C s.aux.mu_tx_fifo)
    let rx_idle := b2n (is_empty_fifo s.aux.mu_rx_fifo)
    let tx_idle := b2n (!is_empty_fifo s.aux.mu_tx_fifo)
    let rx_overrun := s.aux.mu_rx_overrun
    let tx_full := b2n (decide (space_avail = 0))
    let tx_empty := b2n (is_empty_fifo s.aux.mu_tx_fifo)
    let tx_done := rx_idle &&& tx_empty
    let rx_fifo_level := min (used_of_fifo s.aux.mu_rx_fifo) 8
    let tx_fifo_level := min (used_of_fifo s.aux.mu_tx_fifo) 8
    (sym_avail ||| (space_avail <<< 1) ||| (rx_idle <<< 2) |||
      (tx_idle <<< 3) ||| (rx_overrun <<< 4) ||| (tx_full <<< 5) |||
      (tx_empty <<< 8) ||| (tx_done <<< 9) ||| (rx_fifo_level <<< 16) |||
      (tx_fifo_level <<< 24), s)
  else if addr = C.AUX_MU_BAUD_REG then (s.aux.aux_mu_baud, s)
  else (0, s)

/-- The function `handle_aux_write`. -/
def handle_aux_write (C : Config) (s : bcm2837_state) (addr val : Nat) : bcm2837_state :=
  if s.aux.aux_enables &&& 1 = 0 ∧ ADDR_IN_AUX_MU C addr = true then s
  else if addr = C.AUX_ENABLES then
    { s with aux := { s.aux with aux_enables := val % 2 ^ 8 } }
  else if addr = C.AUX_MU_IO_REG then
    if s.aux.aux_mu_lcr &&& LCR_DLAB ≠ 0 then
      { s with aux := { s.aux with
          aux_mu_lcr := (s.aux.aux_mu_lcr &&& not32 LCR_DLAB) % 2 ^ 8
          aux_mu_baud := ((s.aux.aux_mu_baud &&& 0xff00) ||| (val &&& 0xff)) % 2 ^ 16 } }
    else
      { s with aux := { s.aux with
          mu_tx_fifo := (enqueue_fifo C s.aux.mu_tx_fifo (val &&& 0xff)).1 } }
  else if addr = C.AUX_MU_IER_REG then
    if s.aux.aux_mu_lcr &&& LCR_DLAB ≠ 0 then
      { s with aux := { s.aux with
          aux_mu_baud := ((s.aux.aux_mu_baud &&& 0xff) ||| ((val &&& 0xff) <<< 8)) % 2 ^ 16 } }
    else
      { s with aux := { s.aux with aux_mu_ier := val % 2 ^ 8 } }
  else if addr = C.AUX_MU_IIR_REG then
    let s1 := if val &&& 0x2 ≠ 0 then
        { s with aux := { s.aux with mu_rx_fifo := clear_fifo s.aux.mu_rx_fifo } } else s
    if val &&& 0x4 ≠ 0 then
      { s1 with aux := { s1.aux with mu_tx_fifo := clear_fifo s1.aux.mu_tx_fifo } } else s1
  else if addr = C.AUX_MU_LCR_REG then
    { s with aux := { s.aux with aux_mu_lcr := val % 2 ^ 8 } }
  else if addr = C.AUX_MU_MCR_REG then
    { s with aux := { s.aux with aux_mu_mcr := val % 2 ^ 8 } }
  else if addr = C.AUX_MU_SCRATCH then
    { s with aux := { s.aux with aux_mu_scratch := val % 2 ^ 8 } }
  else if addr = C.AUX_MU_CNTL_REG then
    { s with aux := { s.aux with aux_mu_cntl := val % 2 ^ 8 } }
  else if addr = C.AUX_MU_BAUD_REG then
    { s with aux := { s.aux with aux_mu_baud := val % 2 ^ 16 } }
  else s

/-! ## Interrupt controller -/

/-- The body of `case IRQ_PENDING_1` of `handle_intctrl_read`.  The nested
`handle_aux_read(tsk, AUX_IRQ)` is evaluated only when line 57 is enabled
(`&&`), and the state it leaves is carried on. -/
def intctrl_pending_1 (C : Config) (s : bcm2837_state) : Nat × bcm2837_state :=
  let systimer_match1 :=
    b2n (decide (BIT s.intctrl.irqs_1_enabled 1 ≠ 0) && decide (s.systimer.cs &&& 0x2 ≠ 0))
  let systimer_match3 :=
    b2n (decide (BIT s.intctrl.irqs_1_enabled 3 ≠ 0) && decide (s.systimer.cs &&& 0x8 ≠ 0))
  let call : Nat × bcm2837_state :=
    if BIT s.intctrl.irqs_1_enabled (57 - 32) ≠ 0 then
      let r := handle_aux_read C s C.AUX_IRQ
      (b2n (decide (r.1 &&& 0x1 ≠ 0)), r.2)
    else (0, s)
  (((systimer_match1 <<< 1) ||| (systimer_match3 <<< 3) ||| (call.1 <<< 57)) % 2 ^ 64, call.2)

/-- The function `handle_intctrl_read`.  The two recursive calls of
`case IRQ_BASIC_PENDING` enter the switch at the labels `IRQ_PENDING_1` and
`IRQ_PENDING_2`. -/
def handle_intctrl_read (C : Config) (s : bcm2837_state) (addr : Nat) : Nat × bcm2837_state :=
  if addr = C.IRQ_BASIC_PENDING then
    let r1 := intctrl_pending_1 C s
    let pending1 := b2n (decide (r1.1 ≠ 0))
    let pending2 := b2n (decide ((0 : Nat) ≠ 0))
    ((pending1 <<< 8) ||| (pending2 <<< 9), r1.2)
  else if addr = C.IRQ_PENDING_1 then intctrl_pending_1 C s
  else if addr = C.IRQ_PENDING_2 then (0, s)
  else if addr = C.FIQ_CONTROL then (s.intctrl.fiq_control, s)
  else if addr = C.ENABLE_IRQS_1 then (s.intctrl.irqs_1_enabled, s)
  else if addr = C.ENABLE_IRQS_2 then (s.intctrl.irqs_2_enabled, s)
  else if addr = C.ENABLE_BASIC_IRQS then (s.intctrl.basic_irqs_enabled, s)
  else if addr = C.DISABLE_IRQS_1 then (not32 s.intctrl.irqs_1_enabled, s)
  else if addr = C.DISABLE_IRQS_2 then (not32 s.intctrl.irqs_2_enabled, s)
  else if addr = C.DISABLE_BASIC_IRQS then (not64 s.intctrl.basic_irqs_enabled, s)
  else (0, s)

/-- The statements of the `switch` of `handle_intctrl_write`, in source order,
one per `case` label.  No statement is followed by a `break`. -/
def intctrl_write_body (val : Nat) : List (intctrl_state → intctrl_state) :=
  [ fun i => { i with fiq_control := val % 2 ^ 8 },
    fun i => { i with irqs_1_enabled := (i.irqs_1_enabled ||| val) % 2 ^ 32 },
    fun i => { i with irqs_2_enabled := (i.irqs_2_enabled ||| val) % 2 ^ 32 },
    fun i => { i with basic_irqs_enabled := (i.basic_irqs_enabled ||| val) % 2 ^ 8 },
    fun i => { i with irqs_1_enabled := (i.irqs_1_enabled &&& not64 val) % 2 ^ 32 },
    fun i => { i with irqs_2_enabled := (i.irqs_2_enabled &&& not64 val) % 2 ^ 32 },
    fun i => { i with basic_irqs_enabled := (i.basic_irqs_enabled &&& not64 val) % 2 ^ 8 } ]

/-- The position of the `case` label that `handle_intctrl_write` jumps to. -/
def intctrl_write_label (C : Config) (addr : Nat) : Option Nat :=
  if addr = C.FIQ_CONTROL then some 0
  else if addr = C.ENABLE_IRQS_1 then some 1
  else if addr = C.ENABLE_IRQS_2 then some 2
  else if addr = C.ENABLE_BASIC_IRQS then some 3
  else if addr = C.DISABLE_IRQS_1 then some 4
  else if addr = C.DISABLE_IRQS_2 then some 5
  else if addr = C.DISABLE_BASIC_IRQS then some 6
  else none

/-- The function `handle_intctrl_write`: control enters the switch at the
matching label and runs every statement from there to the end of the switch. -/
def handle_intctrl_write (C : Config) (s : bcm2837_state) (addr val : Nat) : bcm2837_state :=
  match intctrl_write_label C addr with
  | none => s
  | some k =>
    { s with intctrl := ((intctrl_write_body val).drop k).foldl (fun i f => f i) s.intctrl }

/-! ## System timer -/

/-- The function `handle_systimer_read`. -/
def handle_systimer_read (C : Config) (s : bcm2837_state) (addr : Nat) : Nat × bcm2837_state :=
  if addr = C.TIMER_CS then (s.systimer.cs, s)
  else if addr = C.TIMER_CLO then (s.systimer.counter &&& 0xffffffff, s)
  else if addr = C.TIMER_CHI then (s.systimer.counter >>> 32, s)
  else if addr = C.TIMER_C0 then (s.systimer.c0, s)
  else if addr = C.TIMER_C1 then (s.systimer.c1, s)
  else if addr = C.TIMER_C2 then (s.systimer.c2, s)
  else if addr = C.TIMER_C3 then (s.systimer.c3, s)
  else (0, s)

/-- The statements of the `switch` of `handle_systimer_write`, in source
order, one per `case` label.  No statement is followed by a `break`. -/
def systimer_write_body (val : Nat) : List (systimer_state → systimer_state) :=
  [ fun t => { t with cs := (t.cs &&& not64 val) % 2 ^ 32 },
    fun t => { t with c0 := val % 2 ^ 32 },
    fun t => { t with c1 := val % 2 ^ 32 },
    fun t => { t with c2 := val % 2 ^ 32 },
    fun t => { t with c3 := val % 2 ^ 32 } ]

/-- The position of the `case` label that `handle_systimer_write` jumps to. -/
def systimer_write_label (C : Config) (addr : Nat) : Option Nat :=
  if addr = C.TIMER_CS then some 0
  else if addr = C.TIMER_C0 then some 1
  else if addr = C.TIMER_C1 then some 2
  else if addr = C.TIMER_C2 then some 3
  else if addr = C.TIMER_C3 then some 4
  else none

/-- The function `handle_systimer_write`: control enters the switch at the
matching label and runs every statement from there to the end of the switch. -/
def handle_systimer_write (C : Config) (s : bcm2837_state) (addr val : Nat) : bcm2837_state :=
  match systimer_write_label C addr with
  | none => s
  | some k =>
    { s with systimer := ((systimer_write_body val).drop k).foldl (fun t f => f t) s.systimer }

/-! ## Dispatcher, tick and IRQ query -/

/-- The function `bcm2837_mmio_read`. -/
def bcm2837_mmio_read (C : Config) (s : bcm2837_state) (addr : Nat) : Nat × bcm2837_state :=
  if ADDR_IN_INTCTRL C addr then handle_intctrl_read C s addr
  else if ADDR_IN_AUX C addr then handle_aux_read C s addr
  else if ADDR_IN_SYSTIMER C addr then handle_systimer_read C s addr
  else (0, s)

/-- The function `bcm2837_mmio_write`. -/
def bcm2837_mmio_write (C : Config) (s : bcm2837_state) (addr val : Nat) : bcm2837_state :=
  if ADDR_IN_INTCTRL C addr then handle_intctrl_write C s addr val
  else if ADDR_IN_AUX C addr then handle_aux_write C s addr val
  else if ADDR_IN_SYSTIMER C addr then handle_systimer_write C s addr val
  else s

/-- The function `bcm2837_timer_tick`. -/
def bcm2837_timer_tick (s : bcm2837_state) : bcm2837_state :=
  let counter := (s.systimer.counter + 1) % 2 ^ 64
  let clo := (counter &&& 0xffff) % 2 ^ 32
  let matched := b2n (decide (clo = s.systimer.c0)) |||
    (b2n (decide (clo = s.systimer.c1)) <<< 1) |||
    (b2n (decide (clo = s.systimer.c2)) <<< 2) |||
    (b2n (decide (clo = s.systimer.c3)) <<< 3)
  let fired := not32 s.systimer.cs &&& matched
  { s with systimer := { s.systimer with
      counter := counter
      cs := (s.systimer.cs ||| fired) % 2 ^ 32 } }

/-- The function `bcm2837_is_irq_asserted`; the value is the returned `int`. -/
def bcm2837_is_irq_asserted (C : Config) (s : bcm2837_state) : Nat × bcm2837_state :=
  let r := handle_intctrl_read C s C.IRQ_BASIC_PENDING
  (b2n (decide (r.1 ≠ 0)), r.2)

/-- The function `bcm2837_is_fiq_asserted`. -/
def bcm2837_is_fiq_asserted (s : bcm2837_state) : Nat × bcm2837_state := (0, s)

/-- The run of `k` successive calls of `bcm2837_timer_tick`. -/
def ticks : Nat → bcm2837_state → bcm2837_state
  | 0, s => s
  | k + 1, s => ticks k (bcm2837_timer_tick s)

/-! ## Sequences of calls -/

/-- One call of the public surface that can change the board state: a trapped
read, a trapped write, or a tick of the host run loop. -/
inductive board_op where
  | mmio_read (addr : Nat)
  | mmio_write (addr val : Nat)
  | timer_tick
deriving DecidableEq, Repr

/-- The state after one call. -/
def board_op.apply (C : Config) (s : bcm2837_state) : board_op → bcm2837_state
  | .mmio_read addr => (bcm2837_mmio_read C s addr).2
  | .mmio_write addr val => bcm2837_mmio_write C s addr val
  | .timer_tick => bcm2837_timer_tick s

/-- The state after a finite sequence of calls, first call first. -/
def run_ops (C : Config) (s : bcm2837_state) (ops : List board_op) : bcm2837_state :=
  ops.foldl (board_op.apply C) s

/-! ## Auxiliary facts -/

theorem bcm2837_config_wf : bcm2837_config.WF := by decide

theorem initial_state_wf : initial_state.WF := by decide

theorem not32_lt (x : Nat) : not32 x < 2 ^ 32 := by
  unfold not32
  exact Nat.xor_lt_two_pow (Nat.mod_lt _ (by norm_num)) (by norm_num)

theorem not32_xor_self (x : Nat) (hx : x < 2 ^ 32) : not32 x ^^^ x = 0xffffffff := by
  unfold not32
  rw [Nat.mod_eq_of_lt hx, Nat.xor_comm, ← Nat.xor_assoc, Nat.xor_self, Nat.zero_xor]

theorem not32_eq_sub (x : Nat) (hx : x < 2 ^ 32) : not32 x = 0xffffffff - x := by
  unfold not32
  rw [Nat.mod_eq_of_lt hx]
  apply Nat.eq_of_testBit_eq
  intro i
  have h1 : (0xffffffff : Nat) - x = 2 ^ 32 - (x + 1) := by omega
  have h2 : (0xffffffff : Nat) = 2 ^ 32 - 1 := by norm_num
  rw [h1, Nat.testBit_two_pow_sub_succ hx, Nat.testBit_xor, h2, Nat.testBit_two_pow_sub_one]
  by_cases hi : i < 32
  · simp [hi]
  · have : x.testBit i = false := by
      apply Nat.testBit_lt_two_pow
      calc x < 2 ^ 32 := hx
        _ ≤ 2 ^ i := Nat.pow_le_pow_right (by norm_num) (by omega)
    simp [hi, this]

theorem mmio_read_intctrl (C : Config) (s : bcm2837_state) (a : Nat)
    (h : C.IRQ_BASIC_PENDING ≤ a ∧ a ≤ C.DISABLE_BASIC_IRQS) :
    bcm2837_mmio_read C s a = handle_intctrl_read C s a := by
  simp [bcm2837_mmio_read, ADDR_IN_INTCTRL, h.1, h.2]

theorem mmio_write_intctrl (C : Config) (s : bcm2837_state) (a v : Nat)
    (h : C.IRQ_BASIC_PENDING ≤ a ∧ a ≤ C.DISABLE_BASIC_IRQS) :
    bcm2837_mmio_write C s a v = handle_intctrl_write C s a v := by
  simp [bcm2837_mmio_write, ADDR_IN_INTCTRL, h.1, h.2]

theorem mmio_read_aux (C : Config) (hC : C.WF) (s : bcm2837_state) (a : Nat)
    (h : C.AUX_IRQ ≤ a ∧ a ≤ C.AUX_MU_BAUD_REG) :
    bcm2837_mmio_read C s a = handle_aux_read C s a := by
  unfold Config.WF at hC
  have h1 : ¬ a ≤ C.DISABLE_BASIC_IRQS := by omega
  simp [bcm2837_mmio_read, ADDR_IN_INTCTRL, ADDR_IN_AUX, h.1, h.2, h1]

theorem mmio_write_aux (C : Config) (hC : C.WF) (s : bcm2837_state) (a v : Nat)
    (h : C.AUX_IRQ ≤ a ∧ a ≤ C.AUX_MU_BAUD_REG) :
    bcm2837_mmio_write C s a v = handle_aux_write C s a v := by
  unfold Config.WF at hC
  have h1 : ¬ a ≤ C.DISABLE_BASIC_IRQS := by omega
  simp [bcm2837_mmio_write, ADDR_IN_INTCTRL, ADDR_IN_AUX, h.1, h.2, h1]

theorem mmio_read_systimer (C : Config) (hC : C.WF) (s : bcm2837_state) (a : Nat)
    (h : C.TIMER_CS ≤ a ∧ a ≤ C.TIMER_C3) :
    bcm2837_mmio_read C s a = handle_systimer_read C s a := by
  unfold Config.WF at hC
  have h1 : ¬ C.IRQ_BASIC_PENDING ≤ a := by omega
  have h2 : ¬ C.AUX_IRQ ≤ a := by omega
  simp [bcm2837_mmio_read, ADDR_IN_INTCTRL, ADDR_IN_AUX, ADDR_IN_SYSTIMER, h.1, h.2, h1, h2]

theorem mmio_write_systimer (C : Config) (hC : C.WF) (s : bcm2837_state) (a v : Nat)
    (h : C.TIMER_CS ≤ a ∧ a ≤ C.TIMER_C3) :
    bcm2837_mmio_write C s a v = handle_systimer_write C s a v := by
  unfold Config.WF at hC
  have h1 : ¬ C.IRQ_BASIC_PENDING ≤ a := by omega
  have h2 : ¬ C.AUX_IRQ ≤ a := by omega
  simp [bcm2837_mmio_write, ADDR_IN_INTCTRL, ADDR_IN_AUX, ADDR_IN_SYSTIMER, h.1, h.2, h1, h2]

theorem intctrl_read_enable_1 (C : Config) (hC : C.WF) (s : bcm2837_state) :
    handle_intctrl_read C s C.ENABLE_IRQS_1 = (s.intctrl.irqs_1_enabled, s) := by
  unfold Config.WF at hC
  have h1 : C.ENABLE_IRQS_1 ≠ C.IRQ_BASIC_PENDING := by omega
  have h2 : C.ENABLE_IRQS_1 ≠ C.IRQ_PENDING_1 := by omega
  have h3 : C.ENABLE_IRQS_1 ≠ C.IRQ_PENDING_2 := by omega
  have h4 : C.ENABLE_IRQS_1 ≠ C.FIQ_CONTROL := by omega
  simp [handle_intctrl_read, h1, h2, h3, h4]

theorem intctrl_read_disable_1 (C : Config) (hC : C.WF) (s : bcm2837_state) :
    handle_intctrl_read C s C.DISABLE_IRQS_1 = (not32 s.intctrl.irqs_1_enabled, s) := by
  unfold Config.WF at hC
  have h1 : C.DISABLE_IRQS_1 ≠ C.IRQ_BASIC_PENDING := by omega
  have h2 : C.DISABLE_IRQS_1 ≠ C.IRQ_PENDING_1 := by omega
  have h3 : C.DISABLE_IRQS_1 ≠ C.IRQ_PENDING_2 := by omega
  have h4 : C.DISABLE_IRQS_1 ≠ C.FIQ_CONTROL := by omega
  have h5 : C.DISABLE_IRQS_1 ≠ C.ENABLE_IRQS_1 := by omega
  have h6 : C.DISABLE_IRQS_1 ≠ C.ENABLE_IRQS_2 := by omega
  have h7 : C.DISABLE_IRQS_1 ≠ C.ENABLE_BASIC_IRQS := by omega
  simp [handle_intctrl_read, h1, h2, h3, h4, h5, h6, h7]

theorem intctrl_write_enable_1 (C : Config) (hC : C.WF) (s : bcm2837_state) (v : Nat) :
    (handle_intctrl_write C s C.ENABLE_IRQS_1 v).intctrl.irqs_1_enabled =
      ((s.intctrl.irqs_1_enabled ||| v) % 2 ^ 32 &&& not64 v) % 2 ^ 32 := by
  unfold Config.WF at hC
  have h4 : C.ENABLE_IRQS_1 ≠ C.FIQ_CONTROL := by omega
  simp [handle_intctrl_write, intctrl_write_label, intctrl_write_body, h4]

theorem aux_gate_open (C : Config) (s : bcm2837_state) (a : Nat)
    (he : s.aux.aux_enables &&& 1 = 1) :
    ¬ (s.aux.aux_enables &&& 1 = 0 ∧ ADDR_IN_AUX_MU C a = true) := by
  intro h; omega

theorem aux_write_lcr (C : Config) (hC : C.WF) (s : bcm2837_state) (v : Nat)
    (he : s.aux.aux_enables &&& 1 = 1) :
    handle_aux_write C s C.AUX_MU_LCR_REG v =
      { s with aux := { s.aux with aux_mu_lcr := v % 2 ^ 8 } } := by
  unfold Config.WF at hC
  unfold handle_aux_write
  rw [if_neg (aux_gate_open C s _ he)]
  simp (disch := omega) only [if_neg, if_pos, if_true, if_false]

theorem aux_write_io_dlab (C : Config) (hC : C.WF) (s : bcm2837_state) (v : Nat)
    (he : s.aux.aux_enables &&& 1 = 1) (hd : s.aux.aux_mu_lcr &&& LCR_DLAB ≠ 0) :
    handle_aux_write C s C.AUX_MU_IO_REG v =
      { s with aux := { s.aux with
          aux_mu_lcr := (s.aux.aux_mu_lcr &&& not32 LCR_DLAB) % 2 ^ 8
          aux_mu_baud := ((s.aux.aux_mu_baud &&& 0xff00) ||| (v &&& 0xff)) % 2 ^ 16 } } := by
  unfold Config.WF at hC
  unfold handle_aux_write
  rw [if_neg (aux_gate_open C s _ he)]
  simp (disch := omega) only [if_neg, if_pos, if_true, if_false]

theorem aux_write_io_data (C : Config) (hC : C.WF) (s : bcm2837_state) (v : Nat)
    (he : s.aux.aux_enables &&& 1 = 1) (hd : s.aux.aux_mu_lcr &&& LCR_DLAB = 0) :
    handle_aux_write C s C.AUX_MU_IO_REG v =
      { s with aux := { s.aux with
          mu_tx_fifo := (enqueue_fifo C s.aux.mu_tx_fifo (v &&& 0xff)).1 } } := by
  unfold Config.WF at hC
  unfold handle_aux_write
  rw [if_neg (aux_gate_open C s _ he)]
  simp (disch := omega) only [if_neg, if_pos, if_true, if_false]

theorem aux_write_ier_dlab (C : Config) (hC : C.WF) (s : bcm2837_state) (v : Nat)
    (he : s.aux.aux_enables &&& 1 = 1) (hd : s.aux.aux_mu_lcr &&& LCR_DLAB ≠ 0) :
    handle_aux_write C s C.AUX_MU_IER_REG v =
      { s with aux := { s.aux with
          aux_mu_baud := ((s.aux.aux_mu_baud &&& 0xff) ||| ((v &&& 0xff) <<< 8)) % 2 ^ 16 } } := by
  unfold Config.WF at hC
  unfold handle_aux_write
  rw [if_neg (aux_gate_open C s _ he)]
  simp (disch := omega) only [if_neg, if_pos, if_true, if_false]

theorem aux_write_ier_plain (C : Config) (hC : C.WF) (s : bcm2837_state) (v : Nat)
    (he : s.aux.aux_enables &&& 1 = 1) (hd : s.aux.aux_mu_lcr &&& LCR_DLAB = 0) :
    handle_aux_write C s C.AUX_MU_IER_REG v =
      { s with aux := { s.aux with aux_mu_ier := v % 2 ^ 8 } } := by
  unfold Config.WF at hC
  unfold handle_aux_write
  rw [if_neg (aux_gate_open C s _ he)]
  simp (disch := omega) only [if_neg, if_pos, if_true, if_false]

theorem aux_read_baud (C : Config) (hC : C.WF) (s : bcm2837_state)
    (he : s.aux.aux_enables &&& 1 = 1) :
    handle_aux_read C s C.AUX_MU_BAUD_REG = (s.aux.aux_mu_baud, s) := by
  unfold Config.WF at hC
  unfold handle_aux_read
  rw [if_neg (aux_gate_open C s _ he)]
  simp (disch := omega) only [if_neg, if_pos, if_true, if_false]

theorem testBit_byte_high (x i : Nat) (hx : x < 2 ^ 8) (hi : 8 ≤ i) : x.testBit i = false := by
  apply Nat.testBit_lt_two_pow
  calc x < 2 ^ 8 := hx
    _ ≤ 2 ^ i := Nat.pow_le_pow_right (by norm_num) hi

theorem testBit_ff (i : Nat) : (0xff : Nat).testBit i = decide (i < 8) := by
  have h : (0xff : Nat) = 2 ^ 8 - 1 := by norm_num
  rw [h, Nat.testBit_two_pow_sub_one]

theorem testBit_ff00 (i : Nat) : (0xff00 : Nat).testBit i = (decide (8 ≤ i) && decide (i < 16)) := by
  have h : (0xff00 : Nat) = (2 ^ 8 - 1) <<< 8 := by decide
  rw [h, Nat.testBit_shiftLeft, Nat.testBit_two_pow_sub_one]
  by_cases h8 : 8 ≤ i
  · by_cases h16 : i < 16
    · have : i - 8 < 8 := by omega
      simp [h8, h16, this]
    · have : ¬ i - 8 < 8 := by omega
      simp [h8, h16, this]
  · simp [h8]

theorem and_ff_of_lt (x : Nat) (hx : x < 256) : x &&& 0xff = x :=
  Nat.and_pow_two_sub_one_of_lt_two_pow (n := 8) hx

theorem baud_low_write (b lo : Nat) (hlo : lo < 256) :
    ((b &&& 0xff00) ||| (lo &&& 0xff)) % 2 ^ 16 = (b &&& 0xff00) ||| lo := by
  rw [and_ff_of_lt lo hlo]
  apply Nat.mod_eq_of_lt
  exact Nat.or_lt_two_pow (Nat.and_lt_two_pow _ (by norm_num)) (by omega)

theorem baud_high_then_low (b hi lo : Nat) (hhi : hi < 256) (hlo : lo < 256) :
    (((((b &&& 0xff) ||| ((hi &&& 0xff) <<< 8)) % 2 ^ 16) &&& 0xff00) ||| (lo &&& 0xff)) % 2 ^ 16
      = (hi <<< 8) ||| lo := by
  rw [and_ff_of_lt lo hlo, and_ff_of_lt hi hhi]
  apply Nat.eq_of_testBit_eq
  intro i
  simp only [Nat.testBit_mod_two_pow, Nat.testBit_or, Nat.testBit_and, Nat.testBit_shiftLeft,
    testBit_ff, testBit_ff00]
  by_cases h8 : 8 ≤ i
  · by_cases h16 : i < 16
    · have : ¬ i < 8 := by omega
      simp [h8, h16, this]
    · have h1 : hi.testBit (i - 8) = false := testBit_byte_high _ _ hhi (by omega)
      have h2 : lo.testBit i = false := testBit_byte_high _ _ hlo (by omega)
      simp [h8, h16, h1, h2]
  · have : i < 16 := by omega
    simp [h8, this]

theorem lcr_dlab_set : (0x80 % 2 ^ 8) &&& LCR_DLAB ≠ 0 := by decide
theorem lcr_dlab_cleared : (((0x80 % 2 ^ 8) &&& not32 LCR_DLAB) % 2 ^ 8) &&& LCR_DLAB = 0 := by decide

theorem tick_clo (c : Nat) : ((c + 1) % 2 ^ 64 &&& 0xffff) % 2 ^ 32 = (c + 1) % 2 ^ 16 := by
  have h : (0xffff : Nat) = 2 ^ 16 - 1 := by norm_num
  rw [h, Nat.and_pow_two_sub_one_eq_mod]
  omega

theorem b2n_testBit_zero (b : Bool) : (b2n b).testBit 0 = b := by
  cases b <;> decide

theorem tick_cs_bit0 (s : bcm2837_state) :
    (bcm2837_timer_tick s).systimer.cs.testBit 0 =
      (s.systimer.cs.testBit 0 || decide ((s.systimer.counter + 1) % 2 ^ 16 = s.systimer.c0)) := by
  simp only [bcm2837_timer_tick, tick_clo, Nat.testBit_mod_two_pow, Nat.testBit_or,
    Nat.testBit_and, Nat.testBit_shiftLeft, b2n_testBit_zero, not32, Nat.testBit_xor]
  cases h : s.systimer.cs.testBit 0 <;> simp

theorem tick_counter (s : bcm2837_state) :
    (bcm2837_timer_tick s).systimer.counter = (s.systimer.counter + 1) % 2 ^ 64 := rfl

theorem tick_c0 (s : bcm2837_state) :
    (bcm2837_timer_tick s).systimer.c0 = s.systimer.c0 := rfl

theorem ticks_succ (k : Nat) (s : bcm2837_state) :
    ticks (k + 1) s = bcm2837_timer_tick (ticks k s) := by
  induction k generalizing s with
  | zero => rfl
  | succ k ih => exact ih (bcm2837_timer_tick s)

theorem ticks_add (a b : Nat) (s : bcm2837_state) :
    ticks (a + b) s = ticks b (ticks a s) := by
  induction b with
  | zero => rfl
  | succ b ih => rw [← Nat.add_assoc, ticks_succ, ticks_succ, ih]

theorem ticks_c0 (k : Nat) (s : bcm2837_state) : (ticks k s).systimer.c0 = s.systimer.c0 := by
  induction k with
  | zero => rfl
  | succ k ih => rw [ticks_succ, tick_c0, ih]

theorem ticks_counter (k : Nat) (s : bcm2837_state) :
    (ticks k s).systimer.counter % 2 ^ 16 = (s.systimer.counter + k) % 2 ^ 16 := by
  induction k with
  | zero => rfl
  | succ k ih =>
    rw [ticks_succ, tick_counter]
    omega

theorem ticks_bit0_stays_clear (k : Nat) (s : bcm2837_state)
    (h0 : s.systimer.cs.testBit 0 = false)
    (hne : ∀ j, 1 ≤ j → j ≤ k → (s.systimer.counter + j) % 2 ^ 16 ≠ s.systimer.c0) :
    (ticks k s).systimer.cs.testBit 0 = false := by
  induction k with
  | zero => exact h0
  | succ k ih =>
    have ih1 := ih (fun j h1 h2 => hne j h1 (by omega))
    have hc := ticks_counter k s
    have hn := hne (k + 1) (by omega) (by omega)
    rw [ticks_succ, tick_cs_bit0, ih1, ticks_c0]
    have : ((ticks k s).systimer.counter + 1) % 2 ^ 16 ≠ s.systimer.c0 := by
      intro h; apply hn; rw [← h]; omega
    simp only [Bool.false_or, decide_eq_false_iff_not]
    exact this

theorem ticks_bit0_stays_set (k : Nat) (s : bcm2837_state)
    (h1 : s.systimer.cs.testBit 0 = true) : (ticks k s).systimer.cs.testBit 0 = true := by
  induction k with
  | zero => exact h1
  | succ k ih => rw [ticks_succ, tick_cs_bit0, ih]; rfl

theorem systimer_write_c0 (C : Config) (hC : C.WF) (s : bcm2837_state) (v : Nat) :
    handle_systimer_write C s C.TIMER_C0 v =
      { s with systimer := { s.systimer with
          c0 := v % 2 ^ 32, c1 := v % 2 ^ 32, c2 := v % 2 ^ 32, c3 := v % 2 ^ 32 } } := by
  unfold Config.WF at hC
  have h : systimer_write_label C C.TIMER_C0 = some 1 := by
    unfold systimer_write_label
    simp (disch := omega) only [if_neg, if_pos, if_true, if_false]
  simp only [handle_systimer_write, h, systimer_write_body, List.drop, List.foldl]

theorem systimer_write_cs (C : Config) (s : bcm2837_state) (v : Nat) :
    handle_systimer_write C s C.TIMER_CS v =
      { s with systimer := { s.systimer with
          cs := (s.systimer.cs &&& not64 v) % 2 ^ 32
          c0 := v % 2 ^ 32, c1 := v % 2 ^ 32, c2 := v % 2 ^ 32, c3 := v % 2 ^ 32 } } := by
  have h : systimer_write_label C C.TIMER_CS = some 0 := by
    unfold systimer_write_label
    simp only [if_true]
  simp only [handle_systimer_write, h, systimer_write_body, List.drop, List.foldl]

theorem not64_one_bit0 (x : Nat) : ((x &&& not64 0x1) % 2 ^ 32).testBit 0 = false := by
  have h : (not64 0x1).testBit 0 = false := by decide
  rw [Nat.testBit_mod_two_pow, Nat.testBit_and, h]
  simp

theorem and_two_pow_ne_zero_iff (x k : Nat) : x &&& 2 ^ k ≠ 0 ↔ x.testBit k = true := by
  constructor
  · intro h
    obtain ⟨i, hi⟩ := Nat.ne_zero_implies_bit_true h
    rw [Nat.testBit_and, Bool.and_eq_true, Nat.testBit_two_pow, decide_eq_true_eq] at hi
    rw [hi.2]; exact hi.1
  · intro h hz
    have h1 : (x &&& 2 ^ k).testBit k = true := by
      rw [Nat.testBit_and, h, Nat.testBit_two_pow_self]; rfl
    rw [hz, Nat.zero_testBit] at h1
    exact Bool.false_ne_true h1

theorem b2n_testBit (b : Bool) (j : Nat) : (b2n b).testBit j = (decide (j = 0) && b) := by
  cases b
  · simp [b2n]
  · cases j with
    | zero => simp [b2n]
    | succ j =>
      have : Nat.testBit 1 (j + 1) = false := by
        rw [Nat.testBit_succ]; simp
      simp [b2n, this]

theorem b2n_eq_one_iff (b : Bool) : b2n b = 1 ↔ b = true := by cases b <;> decide

theorem b2n_eq_zero_iff (b : Bool) : b2n b = 0 ↔ b = false := by cases b <;> decide

theorem pending_1_timer1 (C : Config) (s : bcm2837_state)
    (h1 : s.intctrl.irqs_1_enabled.testBit 1 = true) (h2 : s.systimer.cs.testBit 1 = true) :
    (intctrl_pending_1 C s).1 ≠ 0 := by
  have e1 : BIT s.intctrl.irqs_1_enabled 1 ≠ 0 :=
    (and_two_pow_ne_zero_iff _ 1).2 h1
  have e2 : s.systimer.cs &&& 0x2 ≠ 0 := (and_two_pow_ne_zero_iff _ 1).2 h2
  intro hz
  have hb : (intctrl_pending_1 C s).1.testBit 1 = true := by
    simp only [intctrl_pending_1, Nat.testBit_mod_two_pow, Nat.testBit_or,
      Nat.testBit_shiftLeft, b2n_testBit]
    simp [e1, e2]
  rw [hz, Nat.zero_testBit] at hb
  exact Bool.false_ne_true hb

theorem pending_1_masked (C : Config) (s : bcm2837_state)
    (h : s.intctrl.irqs_1_enabled = 0) : intctrl_pending_1 C s = (0, s) := by
  simp [intctrl_pending_1, BIT, h, b2n]

theorem intctrl_read_basic_pending (C : Config) (s : bcm2837_state) :
    handle_intctrl_read C s C.IRQ_BASIC_PENDING =
      (b2n (decide ((intctrl_pending_1 C s).1 ≠ 0)) <<< 8, (intctrl_pending_1 C s).2) := by
  simp [handle_intctrl_read, b2n]

theorem aux_read_lsr (C : Config) (hC : C.WF) (s : bcm2837_state)
    (he : s.aux.aux_enables &&& 1 = 1) :
    handle_aux_read C s C.AUX_MU_LSR_REG =
      (b2n (!is_empty_fifo s.aux.mu_rx_fifo) ||| (s.aux.mu_rx_overrun <<< 1) |||
        (b2n (!is_full_fifo C s.aux.mu_tx_fifo) <<< 5) |||
        (b2n (is_empty_fifo s.aux.mu_tx_fifo) <<< 6),
        { s with aux := { s.aux with mu_rx_overrun := 0 } }) := by
  unfold Config.WF at hC
  unfold handle_aux_read
  rw [if_neg (aux_gate_open C s _ he)]
  simp (disch := omega) only [if_neg, if_pos, if_true, if_false]

theorem lsr_bits (rx ov tf te : Bool) (i : Nat) :
    (b2n rx ||| (b2n ov <<< 1) ||| (b2n tf <<< 5) ||| (b2n te <<< 6)).testBit i =
      ((decide (i = 0) && rx) || (decide (i = 1) && ov) ||
        (decide (i = 5) && tf) || (decide (i = 6) && te)) := by
  simp only [Nat.testBit_or, Nat.testBit_shiftLeft, b2n_testBit]
  have a1 : (decide (i ≥ 1) && decide (i - 1 = 0)) = decide (i = 1) := by
    rw [← Bool.decide_and]; exact decide_eq_decide.2 (by omega)
  have a5 : (decide (i ≥ 5) && decide (i - 5 = 0)) = decide (i = 5) := by
    rw [← Bool.decide_and]; exact decide_eq_decide.2 (by omega)
  have a6 : (decide (i ≥ 6) && decide (i - 6 = 0)) = decide (i = 6) := by
    rw [← Bool.decide_and]; exact decide_eq_decide.2 (by omega)
  rw [← Bool.and_assoc, ← Bool.and_assoc, ← Bool.and_assoc, a1, a5, a6]

theorem aux_read_io_data (C : Config) (hC : C.WF) (s : bcm2837_state) (b : Nat)
    (rest : List Nat) (he : s.aux.aux_enables &&& 1 = 1)
    (hd : s.aux.aux_mu_lcr &&& LCR_DLAB = 0) (hrx : s.aux.mu_rx_fifo.items = b :: rest) :
    handle_aux_read C s C.AUX_MU_IO_REG =
      (b, { s with aux := { s.aux with mu_rx_fifo := ⟨rest⟩ } }) := by
  unfold Config.WF at hC
  unfold handle_aux_read
  rw [if_neg (aux_gate_open C s _ he)]
  simp (disch := omega) only [if_neg, if_pos, if_true, if_false]
  simp only [dequeue_fifo, hrx]

theorem enqueue_fifo_room (C : Config) (q : fifo) (b : Nat)
    (h : q.items.length < C.FIFO_SIZE) : (enqueue_fifo C q b).1 = ⟨q.items ++ [b]⟩ := by
  have hf : is_full_fifo C q = false := by
    unfold is_full_fifo
    exact decide_eq_false (by omega)
  simp [enqueue_fifo, hf]

theorem aux_enables_not_mu (C : Config) (hC : C.WF) : ADDR_IN_AUX_MU C C.AUX_ENABLES = false := by
  unfold Config.WF at hC
  have : ¬ C.AUX_MU_IO_REG ≤ C.AUX_ENABLES := by omega
  simp [ADDR_IN_AUX_MU, this]

theorem aux_write_enables (C : Config) (hC : C.WF) (s : bcm2837_state) (v : Nat) :
    handle_aux_write C s C.AUX_ENABLES v =
      { s with aux := { s.aux with aux_enables := v % 2 ^ 8 } } := by
  have hg := aux_enables_not_mu C hC
  unfold Config.WF at hC
  unfold handle_aux_write
  rw [if_neg (by rw [hg]; simp)]
  simp only [if_true]

theorem aux_read_enables (C : Config) (hC : C.WF) (s : bcm2837_state) :
    handle_aux_read C s C.AUX_ENABLES = (s.aux.aux_enables, s) := by
  have hg := aux_enables_not_mu C hC
  unfold Config.WF at hC
  unfold handle_aux_read
  rw [if_neg (by rw [hg]; simp)]
  simp (disch := omega) only [if_neg, if_pos, if_true, if_false]

theorem ite_prop {α : Type} (P : α → Prop) (c : Prop) [Decidable c] (x y : α)
    (hx : c → P x) (hy : ¬ c → P y) : P (if c then x else y) := by
  by_cases h : c
  · rw [if_pos h]; exact hx h
  · rw [if_neg h]; exact hy h

theorem aux_read_pure (C : Config) (s : bcm2837_state) (a : Nat)
    (h1 : a ≠ C.AUX_MU_IO_REG) (h2 : a ≠ C.AUX_MU_LSR_REG) :
    (handle_aux_read C s a).2 = s := by
  unfold handle_aux_read
  repeat' first
    | contradiction
    | rfl
    | (refine ite_prop (fun r : Nat × bcm2837_state => r.2 = s) _ _ _ ?_ ?_ <;> intro _)

theorem aux_read_frame (C : Config) (s : bcm2837_state) (a : Nat) :
    (handle_aux_read C s a).2.intctrl = s.intctrl ∧
      (handle_aux_read C s a).2.systimer = s.systimer := by
  unfold handle_aux_read
  repeat' first
    | exact ⟨rfl, rfl⟩
    | (refine ite_prop (fun r : Nat × bcm2837_state => r.2.intctrl = s.intctrl ∧ r.2.systimer = s.systimer)
        _ _ _ ?_ ?_ <;> intro _)
    | split

theorem aux_write_frame (C : Config) (s : bcm2837_state) (a v : Nat) :
    (handle_aux_write C s a v).intctrl = s.intctrl ∧
      (handle_aux_write C s a v).systimer = s.systimer := by
  unfold handle_aux_write
  repeat' first
    | exact ⟨rfl, rfl⟩
    | (refine ite_prop (fun r : bcm2837_state => r.intctrl = s.intctrl ∧ r.systimer = s.systimer)
        _ _ _ ?_ ?_ <;> intro _)

theorem aux_read_irq_pure (C : Config) (s : bcm2837_state) :
    (handle_aux_read C s C.AUX_IRQ).2 = s := by
  unfold handle_aux_read
  refine ite_prop (fun r : Nat × bcm2837_state => r.2 = s) _ _ _ ?_ ?_ <;> intro _
  · rfl
  · rw [if_pos rfl]

theorem pending_1_pure (C : Config) (s : bcm2837_state) : (intctrl_pending_1 C s).2 = s := by
  unfold intctrl_pending_1
  dsimp only
  refine ite_prop (fun r : Nat × bcm2837_state => r.2 = s) _ _ _ ?_ ?_ <;> intro _
  · exact aux_read_irq_pure C s
  · rfl

theorem intctrl_read_pure (C : Config) (s : bcm2837_state) (a : Nat) :
    (handle_intctrl_read C s a).2 = s := by
  unfold handle_intctrl_read
  repeat' first
    | rfl
    | exact pending_1_pure C s
    | (refine ite_prop (fun r : Nat × bcm2837_state => r.2 = s) _ _ _ ?_ ?_ <;> intro _)

theorem systimer_read_pure (C : Config) (s : bcm2837_state) (a : Nat) :
    (handle_systimer_read C s a).2 = s := by
  unfold handle_systimer_read
  repeat' first
    | rfl
    | (refine ite_prop (fun r : Nat × bcm2837_state => r.2 = s) _ _ _ ?_ ?_ <;> intro _)

theorem intctrl_write_frame (C : Config) (s : bcm2837_state) (a v : Nat) :
    (handle_intctrl_write C s a v).aux = s.aux ∧
      (handle_intctrl_write C s a v).systimer = s.systimer := by
  unfold handle_intctrl_write
  split <;> exact ⟨rfl, rfl⟩

theorem systimer_write_frame (C : Config) (s : bcm2837_state) (a v : Nat) :
    (handle_systimer_write C s a v).aux = s.aux ∧
      (handle_systimer_write C s a v).intctrl = s.intctrl := by
  unfold handle_systimer_write
  split <;> exact ⟨rfl, rfl⟩

theorem testBit_index_lt (x k n : Nat) (h : x < 2 ^ n) (hk : x.testBit k = true) : k < n := by
  by_contra hn
  have : x.testBit k = false := by
    apply Nat.testBit_lt_two_pow
    calc x < 2 ^ n := h
      _ ≤ 2 ^ k := Nat.pow_le_pow_right (by norm_num) (by omega)
  rw [this] at hk
  exact Bool.false_ne_true hk

theorem testBit_high_false (x k n : Nat) (h : x < 2 ^ n) (hk : n ≤ k) : x.testBit k = false := by
  apply Nat.testBit_lt_two_pow
  calc x < 2 ^ n := h
    _ ≤ 2 ^ k := Nat.pow_le_pow_right (by norm_num) hk

theorem testBit_ones32 (i : Nat) : (0xffffffff : Nat).testBit i = decide (i < 32) := by
  have h : (0xffffffff : Nat) = 2 ^ 32 - 1 := by norm_num
  rw [h, Nat.testBit_two_pow_sub_one]

theorem testBit_ones64 (i : Nat) : (0xffffffffffffffff : Nat).testBit i = decide (i < 64) := by
  have h : (0xffffffffffffffff : Nat) = 2 ^ 64 - 1 := by norm_num
  rw [h, Nat.testBit_two_pow_sub_one]

theorem not32_testBit (x i : Nat) :
    (not32 x).testBit i = (decide (i < 32) && !x.testBit i) := by
  unfold not32
  rw [Nat.testBit_xor, Nat.testBit_mod_two_pow, testBit_ones32]
  by_cases h : i < 32 <;> simp [h]

theorem not64_testBit (x i : Nat) :
    (not64 x).testBit i = (decide (i < 64) && !x.testBit i) := by
  unfold not64
  rw [Nat.testBit_xor, Nat.testBit_mod_two_pow, testBit_ones64]
  by_cases h : i < 64 <;> simp [h]

theorem or_fired (cs m : Nat) (hcs : cs < 2 ^ 32) (hm : m < 2 ^ 32) :
    (cs ||| (not32 cs &&& m)) % 2 ^ 32 = cs ||| m := by
  apply Nat.eq_of_testBit_eq
  intro i
  rw [Nat.testBit_mod_two_pow, Nat.testBit_or, Nat.testBit_and, not32_testBit, Nat.testBit_or]
  by_cases h : i < 32
  · cases cs.testBit i <;> simp [h]
  · rw [testBit_high_false cs i 32 hcs (by omega), testBit_high_false m i 32 hm (by omega)]
    simp

theorem set_then_clear (v n : Nat) (hn : n ≤ 64) :
    ((0 ||| v) % 2 ^ n &&& not64 v) % 2 ^ n = 0 := by
  apply Nat.eq_of_testBit_eq
  intro i
  rw [Nat.zero_or, Nat.testBit_mod_two_pow, Nat.testBit_and, Nat.testBit_mod_two_pow,
    not64_testBit, Nat.zero_testBit]
  by_cases h : i < n
  · have : i < 64 := by omega
    cases v.testBit i <;> simp [h, this]
  · simp [h]

theorem zero_clear (v n : Nat) : (0 &&& not64 v) % 2 ^ n = 0 := by
  rw [Nat.zero_and, Nat.zero_mod]

theorem tick_matched_lt (a b c d : Bool) :
    b2n a ||| (b2n b <<< 1) ||| (b2n c <<< 2) ||| (b2n d <<< 3) < 2 ^ 4 := by
  cases a <;> cases b <;> cases c <;> cases d <;> decide

theorem tick_matched_bits (a b c d : Bool) :
    let m := b2n a ||| (b2n b <<< 1) ||| (b2n c <<< 2) ||| (b2n d <<< 3)
    m.testBit 0 = a ∧ m.testBit 1 = b ∧ m.testBit 2 = c ∧ m.testBit 3 = d := by
  cases a <;> cases b <;> cases c <;> cases d <;> decide

theorem tick_eq (s : bcm2837_state) (hcs : s.systimer.cs < 2 ^ 32) :
    bcm2837_timer_tick s =
      { s with systimer := { s.systimer with
          counter := (s.systimer.counter + 1) % 2 ^ 64
          cs := s.systimer.cs |||
            (b2n (decide ((s.systimer.counter + 1) % 2 ^ 16 = s.systimer.c0)) |||
              (b2n (decide ((s.systimer.counter + 1) % 2 ^ 16 = s.systimer.c1)) <<< 1) |||
              (b2n (decide ((s.systimer.counter + 1) % 2 ^ 16 = s.systimer.c2)) <<< 2) |||
              (b2n (decide ((s.systimer.counter + 1) % 2 ^ 16 = s.systimer.c3)) <<< 3)) } } := by
  unfold bcm2837_timer_tick
  simp only [tick_clo]
  rw [or_fired _ _ hcs (lt_trans (tick_matched_lt _ _ _ _) (by norm_num))]

theorem systimer_read_clo (C : Config) (hC : C.WF) (s : bcm2837_state) :
    handle_systimer_read C s C.TIMER_CLO = (s.systimer.counter &&& 0xffffffff, s) := by
  unfold Config.WF at hC
  unfold handle_systimer_read
  simp (disch := omega) only [if_neg, if_pos, if_true, if_false]

theorem systimer_read_chi (C : Config) (hC : C.WF) (s : bcm2837_state) :
    handle_systimer_read C s C.TIMER_CHI = (s.systimer.counter >>> 32, s) := by
  unfold Config.WF at hC
  unfold handle_systimer_read
  simp (disch := omega) only [if_neg, if_pos, if_true, if_false]

theorem mmio_read_frame (C : Config) (s : bcm2837_state) (a : Nat) :
    (bcm2837_mmio_read C s a).2.intctrl = s.intctrl ∧
      (bcm2837_mmio_read C s a).2.systimer = s.systimer := by
  unfold bcm2837_mmio_read
  by_cases h1 : ADDR_IN_INTCTRL C a = true
  · rw [if_pos h1, intctrl_read_pure]; exact ⟨rfl, rfl⟩
  · rw [if_neg h1]
    by_cases h2 : ADDR_IN_AUX C a = true
    · rw [if_pos h2]; exact aux_read_frame C s a
    · rw [if_neg h2]
      by_cases h3 : ADDR_IN_SYSTIMER C a = true
      · rw [if_pos h3, systimer_read_pure]; exact ⟨rfl, rfl⟩
      · rw [if_neg h3]; exact ⟨rfl, rfl⟩

theorem mmio_read_pure (C : Config) (s : bcm2837_state) (a : Nat)
    (h1 : a ≠ C.AUX_MU_IO_REG) (h2 : a ≠ C.AUX_MU_LSR_REG) :
    (bcm2837_mmio_read C s a).2 = s := by
  unfold bcm2837_mmio_read
  by_cases c1 : ADDR_IN_INTCTRL C a = true
  · rw [if_pos c1, intctrl_read_pure]
  · rw [if_neg c1]
    by_cases c2 : ADDR_IN_AUX C a = true
    · rw [if_pos c2]; exact aux_read_pure C s a h1 h2
    · rw [if_neg c2]
      by_cases c3 : ADDR_IN_SYSTIMER C a = true
      · rw [if_pos c3, systimer_read_pure]
      · rw [if_neg c3]

theorem systimer_write_cs_other (C : Config) (s : bcm2837_state) (a v : Nat)
    (h : a ≠ C.TIMER_CS) : (handle_systimer_write C s a v).systimer.cs = s.systimer.cs := by
  unfold handle_systimer_write systimer_write_label
  rw [if_neg h]
  split_ifs <;> rfl

theorem mmio_write_cs_other (C : Config) (s : bcm2837_state) (a v : Nat)
    (h : a ≠ C.TIMER_CS) : (bcm2837_mmio_write C s a v).systimer.cs = s.systimer.cs := by
  unfold bcm2837_mmio_write
  by_cases c1 : ADDR_IN_INTCTRL C a = true
  · rw [if_pos c1, (intctrl_write_frame C s a v).2]
  · rw [if_neg c1]
    by_cases c2 : ADDR_IN_AUX C a = true
    · rw [if_pos c2, (aux_write_frame C s a v).2]
    · rw [if_neg c2]
      by_cases c3 : ADDR_IN_SYSTIMER C a = true
      · rw [if_pos c3]; exact systimer_write_cs_other C s a v h
      · rw [if_neg c3]

theorem mmio_write_cs (C : Config) (hC : C.WF) (s : bcm2837_state) (v : Nat) :
    (bcm2837_mmio_write C s C.TIMER_CS v).systimer.cs = (s.systimer.cs &&& not64 v) % 2 ^ 32 := by
  have hw := hC
  unfold Config.WF at hw
  rw [mmio_write_systimer C hC s _ _ (by omega), systimer_write_cs]

theorem tick_cs_bit (s : bcm2837_state) (k : Nat) (hk : k < 32)
    (h : s.systimer.cs.testBit k = true) :
    (bcm2837_timer_tick s).systimer.cs.testBit k = true := by
  unfold bcm2837_timer_tick
  simp only [Nat.testBit_mod_two_pow, Nat.testBit_or, h, hk, decide_True, Bool.true_or,
    Bool.and_self]

theorem intctrl_write_keeps_masks_zero (C : Config) (s : bcm2837_state) (a v : Nat)
    (h1 : s.intctrl.irqs_1_enabled = 0) (h2 : s.intctrl.irqs_2_enabled = 0)
    (h3 : s.intctrl.basic_irqs_enabled = 0) :
    (handle_intctrl_write C s a v).intctrl.irqs_1_enabled = 0 ∧
    (handle_intctrl_write C s a v).intctrl.irqs_2_enabled = 0 ∧
    (handle_intctrl_write C s a v).intctrl.basic_irqs_enabled = 0 := by
  have e32 := set_then_clear v 32 (by norm_num)
  have e8 := set_then_clear v 8 (by norm_num)
  have z32 := zero_clear v 32
  have z8 := zero_clear v 8
  unfold handle_intctrl_write intctrl_write_label
  split_ifs <;>
    simp only [intctrl_write_body, List.drop, List.foldl, h1, h2, h3, e32, e8, z32, z8,
      and_self]

theorem mmio_write_keeps_masks_zero (C : Config) (s : bcm2837_state) (a v : Nat)
    (h1 : s.intctrl.irqs_1_enabled = 0) (h2 : s.intctrl.irqs_2_enabled = 0)
    (h3 : s.intctrl.basic_irqs_enabled = 0) :
    (bcm2837_mmio_write C s a v).intctrl.irqs_1_enabled = 0 ∧
    (bcm2837_mmio_write C s a v).intctrl.irqs_2_enabled = 0 ∧
    (bcm2837_mmio_write C s a v).intctrl.basic_irqs_enabled = 0 := by
  unfold bcm2837_mmio_write
  by_cases c1 : ADDR_IN_INTCTRL C a = true
  · rw [if_pos c1]; exact intctrl_write_keeps_masks_zero C s a v h1 h2 h3
  · rw [if_neg c1]
    by_cases c2 : ADDR_IN_AUX C a = true
    · rw [if_pos c2, (aux_write_frame C s a v).1]; exact ⟨h1, h2, h3⟩
    · rw [if_neg c2]
      by_cases c3 : ADDR_IN_SYSTIMER C a = true
      · rw [if_pos c3, (systimer_write_frame C s a v).2]; exact ⟨h1, h2, h3⟩
      · rw [if_neg c3]; exact ⟨h1, h2, h3⟩

theorem apply_keeps_masks_zero (C : Config) (s : bcm2837_state) (op : board_op)
    (h : s.intctrl.irqs_1_enabled = 0 ∧ s.intctrl.irqs_2_enabled = 0 ∧
      s.intctrl.basic_irqs_enabled = 0) :
    (op.apply C s).intctrl.irqs_1_enabled = 0 ∧ (op.apply C s).intctrl.irqs_2_enabled = 0 ∧
      (op.apply C s).intctrl.basic_irqs_enabled = 0 := by
  cases op with
  | mmio_read a =>
    show (bcm2837_mmio_read C s a).2.intctrl.irqs_1_enabled = 0 ∧
      (bcm2837_mmio_read C s a).2.intctrl.irqs_2_enabled = 0 ∧
      (bcm2837_mmio_read C s a).2.intctrl.basic_irqs_enabled = 0
    rw [(mmio_read_frame C s a).1]; exact h
  | mmio_write a v => exact mmio_write_keeps_masks_zero C s a v h.1 h.2.1 h.2.2
  | timer_tick => exact h

theorem run_keeps_masks_zero (C : Config) (ops : List board_op) (s : bcm2837_state)
    (h : s.intctrl.irqs_1_enabled = 0 ∧ s.intctrl.irqs_2_enabled = 0 ∧
      s.intctrl.basic_irqs_enabled = 0) :
    (run_ops C s ops).intctrl.irqs_1_enabled = 0 ∧
      (run_ops C s ops).intctrl.irqs_2_enabled = 0 ∧
      (run_ops C s ops).intctrl.basic_irqs_enabled = 0 := by
  induction ops generalizing s with
  | nil => exact h
  | cons op rest ih => exact ih (op.apply C s) (apply_keeps_masks_zero C s op h)

theorem intctrl_read_pending_1 (C : Config) (hC : C.WF) (s : bcm2837_state) :
    handle_intctrl_read C s C.IRQ_PENDING_1 = intctrl_pending_1 C s := by
  unfold Config.WF at hC
  unfold handle_intctrl_read
  simp (disch := omega) only [if_neg, if_pos, if_true, if_false]

theorem aux_read_stat (C : Config) (hC : C.WF) (s : bcm2837_state)
    (he : s.aux.aux_enables &&& 1 = 1) :
    handle_aux_read C s C.AUX_MU_STAT_REG =
      (b2n (!is_empty_fifo s.aux.mu_rx_fifo) |||
        (b2n (!is_full_fifo C s.aux.mu_tx_fifo) <<< 1) |||
        (b2n (is_empty_fifo s.aux.mu_rx_fifo) <<< 2) |||
        (b2n (!is_empty_fifo s.aux.mu_tx_fifo) <<< 3) |||
        (s.aux.mu_rx_overrun <<< 4) |||
        (b2n (decide (b2n (!is_full_fifo C s.aux.mu_tx_fifo) = 0)) <<< 5) |||
        (b2n (is_empty_fifo s.aux.mu_tx_fifo) <<< 8) |||
        ((b2n (is_empty_fifo s.aux.mu_rx_fifo) &&& b2n (is_empty_fifo s.aux.mu_tx_fifo)) <<< 9) |||
        (min (used_of_fifo s.aux.mu_rx_fifo) 8 <<< 16) |||
        (min (used_of_fifo s.aux.mu_tx_fifo) 8 <<< 24), s) := by
  unfold Config.WF at hC
  unfold handle_aux_read
  rw [if_neg (aux_gate_open C s _ he)]
  simp (disch := omega) only [if_neg, if_pos, if_true, if_false]

theorem b2n_not_eq_zero (b : Bool) : b2n (decide (b2n (!b) = 0)) = b2n b := by
  cases b <;> rfl

theorem b2n_and (a b : Bool) : b2n a &&& b2n b = b2n (a && b) := by
  cases a <;> cases b <;> rfl

theorem shift_bit (b : Bool) (k i : Nat) :
    (b2n b <<< k).testBit i = (decide (i = k) && b) := by
  rw [Nat.testBit_shiftLeft, b2n_testBit]
  by_cases h : i = k
  · subst h; simp
  · by_cases h2 : i ≥ k
    · have : ¬ i - k = 0 := by omega
      simp [h, h2, this]
    · simp [h, h2]

theorem shift_level (l k i : Nat) (hl : l < 2 ^ 8) :
    (l <<< k).testBit i = (decide (k ≤ i ∧ i < k + 8) && l.testBit (i - k)) := by
  rw [Nat.testBit_shiftLeft]
  by_cases h : k ≤ i
  · by_cases h2 : i < k + 8
    · simp [h, h2]
    · rw [testBit_high_false l (i - k) 8 hl (by omega)]
      simp
  · simp [h]

theorem stat_bits (rxn tnf rxe tne ov tf te : Bool) (lr lt i : Nat)
    (hlr : lr < 2 ^ 8) (hlt : lt < 2 ^ 8) :
    (b2n rxn ||| (b2n tnf <<< 1) ||| (b2n rxe <<< 2) ||| (b2n tne <<< 3) ||| (b2n ov <<< 4) |||
      (b2n tf <<< 5) ||| (b2n te <<< 8) ||| (b2n (rxe && te) <<< 9) ||| (lr <<< 16) |||
      (lt <<< 24)).testBit i =
      ((decide (i = 0) && rxn) || (decide (i = 1) && tnf) || (decide (i = 2) && rxe) ||
        (decide (i = 3) && tne) || (decide (i = 4) && ov) || (decide (i = 5) && tf) ||
        (decide (i = 8) && te) || (decide (i = 9) && (rxe && te)) ||
        (decide (16 ≤ i ∧ i < 16 + 8) && lr.testBit (i - 16)) ||
        (decide (24 ≤ i ∧ i < 24 + 8) && lt.testBit (i - 24))) := by
  simp only [Nat.testBit_or, shift_bit, shift_level _ _ _ hlr, shift_level _ _ _ hlt,
    b2n_testBit]

theorem aux_read_iir (C : Config) (hC : C.WF) (s : bcm2837_state)
    (he : s.aux.aux_enables &&& 1 = 1) :
    handle_aux_read C s C.AUX_MU_IIR_REG = (aux_mu_iir_value s, s) := by
  unfold Config.WF at hC
  unfold handle_aux_read
  rw [if_neg (aux_gate_open C s _ he)]
  simp (disch := omega) only [if_neg, if_pos, if_true, if_false]

theorem and_two_ne_zero_iff (x : Nat) : x &&& 0x2 ≠ 0 ↔ x.testBit 1 = true :=
  and_two_pow_ne_zero_iff x 1

theorem and_one_ne_zero_iff (x : Nat) : x &&& 0x1 ≠ 0 ↔ x.testBit 0 = true :=
  and_two_pow_ne_zero_iff x 0

theorem iir_pack (tx rx : Bool) :
    let int_id := b2n tx ||| (b2n rx <<< 1)
    let int_id := if int_id = 0x3 then 0x1 else int_id
    let v := b2n (decide (int_id = 0)) ||| (int_id <<< 1) ||| (0x3 <<< 6)
    v.testBit 6 = true ∧ v.testBit 7 = true ∧ v.testBit 0 = !(tx || rx) ∧
      (v >>> 1) &&& 0x3 = (if tx then 1 else if rx then 2 else 0) ∧
      v &&& 0x38 = 0 ∧ v < 2 ^ 8 := by
  cases tx <;> cases rx <;> decide

theorem stat_fields (rxn tnf rxe tne ov tf te : Bool) (lr lt : Nat)
    (hlr : lr < 2 ^ 8) (hlt : lt < 2 ^ 8) :
    let v := b2n rxn ||| (b2n tnf <<< 1) ||| (b2n rxe <<< 2) ||| (b2n tne <<< 3) |||
      (b2n ov <<< 4) ||| (b2n tf <<< 5) ||| (b2n te <<< 8) ||| (b2n (rxe && te) <<< 9) |||
      (lr <<< 16) ||| (lt <<< 24)
    (v >>> 16) &&& 0xff = lr ∧ (v >>> 24) &&& 0xff = lt := by
  intro v
  constructor
  · apply Nat.eq_of_testBit_eq
    intro j
    rw [Nat.testBit_and, Nat.testBit_shiftRight, testBit_ff, stat_bits _ _ _ _ _ _ _ _ _ _ hlr hlt]
    by_cases hj : j < 8
    · have e1 : (16 ≤ 16 + j ∧ 16 + j < 16 + 8) := by omega
      have e2 : ¬ (24 ≤ 16 + j ∧ 16 + j < 24 + 8) := by omega
      have e3 : 16 + j - 16 = j := by omega
      have n0 : ¬ 16 + j = 0 := by omega
      have n1 : ¬ 16 + j = 1 := by omega
      have n2 : ¬ 16 + j = 2 := by omega
      have n3 : ¬ 16 + j = 3 := by omega
      have n4 : ¬ 16 + j = 4 := by omega
      have n5 : ¬ 16 + j = 5 := by omega
      have n8 : ¬ 16 + j = 8 := by omega
      have n9 : ¬ 16 + j = 9 := by omega
      simp [hj, e1, e2, e3, n0, n1, n2, n3, n4, n5, n8, n9]
    · rw [testBit_high_false lr j 8 hlr (by omega)]
      simp [hj]
  · apply Nat.eq_of_testBit_eq
    intro j
    rw [Nat.testBit_and, Nat.testBit_shiftRight, testBit_ff, stat_bits _ _ _ _ _ _ _ _ _ _ hlr hlt]
    by_cases hj : j < 8
    · have e1 : ¬ (16 ≤ 24 + j ∧ 24 + j < 16 + 8) := by omega
      have e2 : (24 ≤ 24 + j ∧ 24 + j < 24 + 8) := by omega
      have e3 : 24 + j - 24 = j := by omega
      have n0 : ¬ 24 + j = 0 := by omega
      have n1 : ¬ 24 + j = 1 := by omega
      have n2 : ¬ 24 + j = 2 := by omega
      have n3 : ¬ 24 + j = 3 := by omega
      have n4 : ¬ 24 + j = 4 := by omega
      have n5 : ¬ 24 + j = 5 := by omega
      have n8 : ¬ 24 + j = 8 := by omega
      have n9 : ¬ 24 + j = 9 := by omega
      simp [hj, e1, e2, e3, n0, n1, n2, n3, n4, n5, n8, n9]
    · rw [testBit_high_false lt j 8 hlt (by omega)]
      simp [hj]

theorem dlab_bit_cleared (x : Nat) : ((x &&& not32 LCR_DLAB) % 2 ^ 8) &&& LCR_DLAB = 0 := by
  apply Nat.eq_of_testBit_eq
  intro i
  have h80 : LCR_DLAB = 2 ^ 7 := rfl
  rw [Nat.testBit_and, Nat.testBit_mod_two_pow, Nat.testBit_and, not32_testBit, Nat.zero_testBit,
    h80, Nat.testBit_two_pow]
  by_cases h : 7 = i
  · subst h; simp
  · simp [h]

theorem aux_read_io_dlab (C : Config) (hC : C.WF) (s : bcm2837_state)
    (he : s.aux.aux_enables &&& 1 = 1) (hd : s.aux.aux_mu_lcr &&& LCR_DLAB ≠ 0) :
    handle_aux_read C s C.AUX_MU_IO_REG =
      (s.aux.aux_mu_baud &&& 0xff,
        { s with aux := { s.aux with
            aux_mu_lcr := (s.aux.aux_mu_lcr &&& not32 LCR_DLAB) % 2 ^ 8 } }) := by
  unfold Config.WF at hC
  unfold handle_aux_read
  rw [if_neg (aux_gate_open C s _ he)]
  simp (disch := omega) only [if_neg, if_pos, if_true, if_false]

theorem aux_read_ier_dlab (C : Config) (hC : C.WF) (s : bcm2837_state)
    (he : s.aux.aux_enables &&& 1 = 1) (hd : s.aux.aux_mu_lcr &&& LCR_DLAB ≠ 0) :
    handle_aux_read C s C.AUX_MU_IER_REG = (s.aux.aux_mu_baud >>> 8, s) := by
  unfold Config.WF at hC
  unfold handle_aux_read
  rw [if_neg (aux_gate_open C s _ he)]
  simp (disch := omega) only [if_neg, if_pos, if_true, if_false]

/-! ## C1: addresses outside the three ranges -/

/-- C1: for an address outside the interrupt-controller, AUX and system-timer
ranges, `bcm2837_mmio_read` returns 0 and leaves the state as it is, and
`bcm2837_mmio_write` leaves the state as it is. -/
theorem mmio_unmapped_noop (C : Config) (s : bcm2837_state) (a v : Nat)
    (h1 : ¬ (C.IRQ_BASIC_PENDING ≤ a ∧ a ≤ C.DISABLE_BASIC_IRQS))
    (h2 : ¬ (C.AUX_IRQ ≤ a ∧ a ≤ C.AUX_MU_BAUD_REG))
    (h3 : ¬ (C.TIMER_CS ≤ a ∧ a ≤ C.TIMER_C3)) :
    bcm2837_mmio_read C s a = (0, s) ∧ bcm2837_mmio_write C s a v = s := by
  have e1 : ADDR_IN_INTCTRL C a = false := by
    simp only [ADDR_IN_INTCTRL, ge_iff_le, Bool.and_eq_false_imp, decide_eq_true_eq,
      decide_eq_false_iff_not]
    intro h; exact fun h' => h1 ⟨h, h'⟩
  have e2 : ADDR_IN_AUX C a = false := by
    simp only [ADDR_IN_AUX, ge_iff_le, Bool.and_eq_false_imp, decide_eq_true_eq,
      decide_eq_false_iff_not]
    intro h; exact fun h' => h2 ⟨h, h'⟩
  have e3 : ADDR_IN_SYSTIMER C a = false := by
    simp only [ADDR_IN_SYSTIMER, ge_iff_le, Bool.and_eq_false_imp, decide_eq_true_eq,
      decide_eq_false_iff_not]
    intro h; exact fun h' => h3 ⟨h, h'⟩
  simp [bcm2837_mmio_read, bcm2837_mmio_write, e1, e2, e3]

theorem mmio_unmapped_noop_witness :
    bcm2837_mmio_read bcm2837_config initial_state 0x3F200000 = (0, initial_state) ∧
    bcm2837_mmio_write bcm2837_config initial_state 0x3F200000 7 = initial_state :=
  mmio_unmapped_noop bcm2837_config initial_state 0x3F200000 7
    (by decide) (by decide) (by decide)

/-! ## C2: the disable view is the complement of the enable mask -/

/-- C2: after `bcm2837_mmio_write(ENABLE_IRQS_1, m)` the value read from
`DISABLE_IRQS_1` is the 32-bit bitwise complement of the value read from
`ENABLE_IRQS_1`: both are 32-bit values, every one of the 32 bits is set in
exactly one of them, and neither read changes the state. -/
theorem enable_disable_complement (C : Config) (hC : C.WF) (s : bcm2837_state) (m : Nat) :
    let s1 := bcm2837_mmio_write C s C.ENABLE_IRQS_1 m
    let en := bcm2837_mmio_read C s1 C.ENABLE_IRQS_1
    let dis := bcm2837_mmio_read C s1 C.DISABLE_IRQS_1
    dis.1 = not32 en.1 ∧ dis.1 = 0xffffffff - en.1 ∧ dis.1 ^^^ en.1 = 0xffffffff ∧
      en.1 < 2 ^ 32 ∧ dis.1 < 2 ^ 32 ∧ en.2 = s1 ∧ dis.2 = s1 := by
  have hw := hC
  unfold Config.WF at hw
  have r1 : C.IRQ_BASIC_PENDING ≤ C.ENABLE_IRQS_1 ∧ C.ENABLE_IRQS_1 ≤ C.DISABLE_BASIC_IRQS := by
    omega
  have r2 : C.IRQ_BASIC_PENDING ≤ C.DISABLE_IRQS_1 ∧ C.DISABLE_IRQS_1 ≤ C.DISABLE_BASIC_IRQS := by
    omega
  intro s1 en dis
  have hen : en = (s1.intctrl.irqs_1_enabled, s1) := by
    simp only [en, mmio_read_intctrl C s1 _ r1, intctrl_read_enable_1 C hC]
  have hdis : dis = (not32 s1.intctrl.irqs_1_enabled, s1) := by
    simp only [dis, mmio_read_intctrl C s1 _ r2, intctrl_read_disable_1 C hC]
  have hlt : s1.intctrl.irqs_1_enabled < 2 ^ 32 := by
    simp only [s1, mmio_write_intctrl C s _ m r1, intctrl_write_enable_1 C hC]
    exact Nat.mod_lt _ (by norm_num)
  rw [hen, hdis]
  exact ⟨rfl, not32_eq_sub _ hlt, not32_xor_self _ hlt, hlt, not32_lt _, rfl, rfl⟩

theorem enable_disable_complement_witness :
    let s1 := bcm2837_mmio_write bcm2837_config initial_state
      bcm2837_config.ENABLE_IRQS_1 0x2
    let en := bcm2837_mmio_read bcm2837_config s1 bcm2837_config.ENABLE_IRQS_1
    let dis := bcm2837_mmio_read bcm2837_config s1 bcm2837_config.DISABLE_IRQS_1
    dis.1 = not32 en.1 ∧ dis.1 = 0xffffffff - en.1 ∧ dis.1 ^^^ en.1 = 0xffffffff ∧
      en.1 < 2 ^ 32 ∧ dis.1 < 2 ^ 32 ∧ en.2 = s1 ∧ dis.2 = s1 :=
  enable_disable_complement bcm2837_config (by decide) initial_state 0x2

/-! ## C3: a write to an ENABLE register -/

/-- C3: from the initial state, a write of 1 to `ENABLE_IRQS_1`,
`ENABLE_IRQS_2` or `ENABLE_BASIC_IRQS` is followed by a read of that register
which returns 0, not `0 OR 1`: the statements of the `DISABLE` labels run
after those of the `ENABLE` labels and clear the bits just set. -/
theorem enable_write_reads_back_clear :
    (bcm2837_mmio_read bcm2837_config
      (bcm2837_mmio_write bcm2837_config initial_state bcm2837_config.ENABLE_IRQS_1 1)
      bcm2837_config.ENABLE_IRQS_1).1 = 0 ∧
    (bcm2837_mmio_read bcm2837_config
      (bcm2837_mmio_write bcm2837_config initial_state bcm2837_config.ENABLE_IRQS_2 1)
      bcm2837_config.ENABLE_IRQS_2).1 = 0 ∧
    (bcm2837_mmio_read bcm2837_config
      (bcm2837_mmio_write bcm2837_config initial_state bcm2837_config.ENABLE_BASIC_IRQS 1)
      bcm2837_config.ENABLE_BASIC_IRQS).1 = 0 ∧
    (initial_state.intctrl.irqs_1_enabled ||| 1) % 2 ^ 32 = 1 := by
  decide

/-! ## C4: frame of an interrupt-controller write -/

/-- C4: `handle_intctrl_write` does not touch only the field its register
targets.  In a state whose `irqs_1_enabled` is 1 and whose `irqs_2_enabled`
is 2, a write of 1 to `FIQ_CONTROL` sets `fiq_control` and also clears
`irqs_1_enabled`, and a write of 2 to `ENABLE_IRQS_1` clears `irqs_2_enabled`:
control falls through every later label of the switch. -/
theorem intctrl_write_falls_through :
    let s0 : bcm2837_state :=
      { initial_state with
        intctrl := { initial_state.intctrl with irqs_1_enabled := 1, irqs_2_enabled := 2 } }
    s0.WF ∧
    (handle_intctrl_write bcm2837_config s0 bcm2837_config.FIQ_CONTROL 1).intctrl.fiq_control = 1 ∧
    s0.intctrl.irqs_1_enabled = 1 ∧
    (handle_intctrl_write bcm2837_config s0 bcm2837_config.FIQ_CONTROL 1).intctrl.irqs_1_enabled
      = 0 ∧
    s0.intctrl.irqs_2_enabled = 2 ∧
    (handle_intctrl_write bcm2837_config s0 bcm2837_config.ENABLE_IRQS_1 2).intctrl.irqs_2_enabled
      = 0 := by
  decide

/-! ## C5: the divisor latch -/

/-- C5, as stated, fails: with the mini-UART enabled and the divisor 0, after
`write(AUX_MU_LCR_REG, 0x80); write(AUX_MU_IO_REG, 0); write(AUX_MU_IER_REG, 1)`
the read of `AUX_MU_BAUD_REG` gives 0, not `(1 << 8) | 0`. -/
theorem dlab_io_then_ier_misses_high_byte :
    let C : Config := bcm2837_config
    let s0 : bcm2837_state :=
      { initial_state with aux := { initial_state.aux with aux_enables := 1 } }
    let s1 := bcm2837_mmio_write C s0 C.AUX_MU_LCR_REG 0x80
    let s2 := bcm2837_mmio_write C s1 C.AUX_MU_IO_REG 0
    let s3 := bcm2837_mmio_write C s2 C.AUX_MU_IER_REG 1
    s0.WF ∧ s0.aux.aux_enables &&& 1 = 1 ∧
    (bcm2837_mmio_read C s3 C.AUX_MU_BAUD_REG).1 = 0 ∧
    (bcm2837_mmio_read C s3 C.AUX_MU_BAUD_REG).1 ≠ (1 <<< 8) ||| 0 := by
  decide

/-- C5, amended: with the mini-UART enabled and bytes `lo`, `hi`, `x`, after
`write(LCR, 0x80); write(IO, lo); write(IER, hi)` the IO write has set the low
byte of the divisor and cleared DLAB, so the IER write lands in the IER
register: `BAUD` reads `(old divisor & 0xff00) | lo`, IER holds `hi` and DLAB
is clear.  With the IER write before the IO write, `write(LCR, 0x80);
write(IER, hi); write(IO, lo)`, `BAUD` reads `(hi << 8) | lo`, IER is
untouched and DLAB is clear.  In both cases a following `write(IER, x)` sets
IER to `x` and changes nothing else, the divisor included. -/
theorem dlab_baud_sequences (C : Config) (hC : C.WF) (s : bcm2837_state) (lo hi x : Nat)
    (he : s.aux.aux_enables &&& 1 = 1) (hlo : lo < 256) (hhi : hi < 256) (hx : x < 256) :
    let s1 := bcm2837_mmio_write C s C.AUX_MU_LCR_REG 0x80
    let s2 := bcm2837_mmio_write C s1 C.AUX_MU_IO_REG lo
    let s3 := bcm2837_mmio_write C s2 C.AUX_MU_IER_REG hi
    let s4 := bcm2837_mmio_write C s3 C.AUX_MU_IER_REG x
    let t2 := bcm2837_mmio_write C s1 C.AUX_MU_IER_REG hi
    let t3 := bcm2837_mmio_write C t2 C.AUX_MU_IO_REG lo
    let t4 := bcm2837_mmio_write C t3 C.AUX_MU_IER_REG x
    (bcm2837_mmio_read C s3 C.AUX_MU_BAUD_REG = ((s.aux.aux_mu_baud &&& 0xff00) ||| lo, s3) ∧
      s3.aux.aux_mu_ier = hi ∧ s3.aux.aux_mu_lcr &&& LCR_DLAB = 0 ∧
      s4 = { s3 with aux := { s3.aux with aux_mu_ier := x } }) ∧
    (bcm2837_mmio_read C t3 C.AUX_MU_BAUD_REG = ((hi <<< 8) ||| lo, t3) ∧
      t3.aux.aux_mu_ier = s.aux.aux_mu_ier ∧ t3.aux.aux_mu_lcr &&& LCR_DLAB = 0 ∧
      t4 = { t3 with aux := { t3.aux with aux_mu_ier := x } }) := by
  have hw := hC
  unfold Config.WF at hw
  have rL : C.AUX_IRQ ≤ C.AUX_MU_LCR_REG ∧ C.AUX_MU_LCR_REG ≤ C.AUX_MU_BAUD_REG := by omega
  have rI : C.AUX_IRQ ≤ C.AUX_MU_IO_REG ∧ C.AUX_MU_IO_REG ≤ C.AUX_MU_BAUD_REG := by omega
  have rE : C.AUX_IRQ ≤ C.AUX_MU_IER_REG ∧ C.AUX_MU_IER_REG ≤ C.AUX_MU_BAUD_REG := by omega
  have rB : C.AUX_IRQ ≤ C.AUX_MU_BAUD_REG ∧ C.AUX_MU_BAUD_REG ≤ C.AUX_MU_BAUD_REG := by omega
  intro s1 s2 s3 s4 t2 t3 t4
  have e1 : s1 = { s with aux := { s.aux with aux_mu_lcr := 0x80 % 2 ^ 8 } } := by
    simp only [s1, mmio_write_aux C hC s _ _ rL, aux_write_lcr C hC s _ he]
  have e2 : s2 = { s with aux := { s.aux with
      aux_mu_lcr := ((0x80 % 2 ^ 8) &&& not32 LCR_DLAB) % 2 ^ 8
      aux_mu_baud := (s.aux.aux_mu_baud &&& 0xff00) ||| lo } } := by
    simp only [s2, mmio_write_aux C hC s1 _ _ rI]
    rw [aux_write_io_dlab C hC s1 _ (by rw [e1]; exact he) (by rw [e1]; exact lcr_dlab_set)]
    rw [e1]
    simp only [baud_low_write _ _ hlo]
  have e3 : s3 = { s2 with aux := { s2.aux with aux_mu_ier := hi } } := by
    simp only [s3, mmio_write_aux C hC s2 _ _ rE]
    rw [aux_write_ier_plain C hC s2 _ (by rw [e2]; exact he) (by rw [e2]; exact lcr_dlab_cleared)]
    rw [Nat.mod_eq_of_lt (by omega : hi < 2 ^ 8)]
  have d3 : s3.aux.aux_mu_lcr &&& LCR_DLAB = 0 := by rw [e3, e2]; exact lcr_dlab_cleared
  have en3 : s3.aux.aux_enables &&& 1 = 1 := by rw [e3, e2]; exact he
  have e4 : s4 = { s3 with aux := { s3.aux with aux_mu_ier := x } } := by
    simp only [s4, mmio_write_aux C hC s3 _ _ rE]
    rw [aux_write_ier_plain C hC s3 _ en3 d3, Nat.mod_eq_of_lt (by omega : x < 2 ^ 8)]
  have f2 : t2 = { s1 with aux := { s1.aux with
      aux_mu_baud := ((s.aux.aux_mu_baud &&& 0xff) ||| ((hi &&& 0xff) <<< 8)) % 2 ^ 16 } } := by
    simp only [t2, mmio_write_aux C hC s1 _ _ rE]
    rw [aux_write_ier_dlab C hC s1 _ (by rw [e1]; exact he) (by rw [e1]; exact lcr_dlab_set)]
    rw [e1]
  have f3 : t3 = { s with aux := { s.aux with
      aux_mu_lcr := ((0x80 % 2 ^ 8) &&& not32 LCR_DLAB) % 2 ^ 8
      aux_mu_baud := (hi <<< 8) ||| lo } } := by
    simp only [t3, mmio_write_aux C hC t2 _ _ rI]
    rw [aux_write_io_dlab C hC t2 _ (by rw [f2, e1]; exact he)
      (by rw [f2, e1]; exact lcr_dlab_set)]
    rw [f2, e1]
    simp only [baud_high_then_low _ _ _ hhi hlo]
  have g3 : t3.aux.aux_mu_lcr &&& LCR_DLAB = 0 := by rw [f3]; exact lcr_dlab_cleared
  have gn3 : t3.aux.aux_enables &&& 1 = 1 := by rw [f3]; exact he
  have f4 : t4 = { t3 with aux := { t3.aux with aux_mu_ier := x } } := by
    simp only [t4, mmio_write_aux C hC t3 _ _ rE]
    rw [aux_write_ier_plain C hC t3 _ gn3 g3, Nat.mod_eq_of_lt (by omega : x < 2 ^ 8)]
  refine ⟨⟨?_, ?_, d3, e4⟩, ⟨?_, ?_, g3, f4⟩⟩
  · rw [mmio_read_aux C hC s3 _ rB, aux_read_baud C hC s3 en3, e3, e2]
  · rw [e3]
  · rw [mmio_read_aux C hC t3 _ rB, aux_read_baud C hC t3 gn3, f3]
  · rw [f3]

theorem dlab_baud_sequences_witness :
    let C : Config := bcm2837_config
    let s : bcm2837_state :=
      { initial_state with aux := { initial_state.aux with aux_enables := 1, aux_mu_baud := 0x1234 } }
    let s1 := bcm2837_mmio_write C s C.AUX_MU_LCR_REG 0x80
    let s3 := bcm2837_mmio_write C (bcm2837_mmio_write C s1 C.AUX_MU_IO_REG 0x0e)
      C.AUX_MU_IER_REG 0x01
    let t3 := bcm2837_mmio_write C (bcm2837_mmio_write C s1 C.AUX_MU_IER_REG 0x01)
      C.AUX_MU_IO_REG 0x0e
    (bcm2837_mmio_read C s3 C.AUX_MU_BAUD_REG).1 = 0x120e ∧
      (bcm2837_mmio_read C t3 C.AUX_MU_BAUD_REG).1 = 0x010e := by
  intro C s s1 s3 t3
  have h := dlab_baud_sequences C (by decide) s 0x0e 0x01 0x05
    (by decide) (by decide) (by decide) (by decide)
  exact ⟨(congrArg Prod.fst h.1.1).trans (by decide), (congrArg Prod.fst h.2.1).trans (by decide)⟩

/-! ## C6: the timer match edge -/

/-- C6, as stated, fails: with the counter at `0xfffb` and `cs` 0, `n + 5` is
`0x10000`; after `write(TIMER_C0, n + 5)` and five ticks bit 0 of `cs` is
still 0, because the tick compares only the low 16 bits of the counter with
the whole compare register. -/
theorem timer_match_missed_past_16_bits :
    let C : Config := bcm2837_config
    let s : bcm2837_state :=
      { initial_state with systimer := { initial_state.systimer with counter := 0xfffb } }
    let n := s.systimer.counter % 2 ^ 16
    s.WF ∧ s.systimer.cs.testBit 0 = false ∧ n + 5 = 0x10000 ∧
    (ticks 5 (bcm2837_mmio_write C s C.TIMER_C0 (n + 5))).systimer.cs.testBit 0 = false := by
  decide

/-- C6, amended: for a state whose `cs` bit 0 is clear and whose `n`, the low
16 bits of the counter, satisfies `n + 5 ≤ 0xffff`: after
`write(TIMER_C0, n + 5)` bit 0 of `cs` is 0 after each of the first four
ticks and 1 after the fifth and after any number of further ticks; after
`write(TIMER_CS, 0x1)` it is 0, and a following tick leaves it 0 whenever the
low 16 bits of the new counter differ from the `c0` field then stored. -/
theorem timer_match_edge (C : Config) (hC : C.WF) (s : bcm2837_state)
    (h0 : s.systimer.cs.testBit 0 = false)
    (hn : s.systimer.counter % 2 ^ 16 + 5 < 2 ^ 16) :
    let n := s.systimer.counter % 2 ^ 16
    let s0 := bcm2837_mmio_write C s C.TIMER_C0 (n + 5)
    (∀ k, 1 ≤ k → k ≤ 4 → (ticks k s0).systimer.cs.testBit 0 = false) ∧
    (∀ k, 5 ≤ k → (ticks k s0).systimer.cs.testBit 0 = true) ∧
    (∀ k, 5 ≤ k →
      let u := bcm2837_mmio_write C (ticks k s0) C.TIMER_CS 0x1
      u.systimer.cs.testBit 0 = false ∧
      ((bcm2837_timer_tick u).systimer.counter % 2 ^ 16 ≠ u.systimer.c0 →
        (bcm2837_timer_tick u).systimer.cs.testBit 0 = false)) := by
  have hw := hC
  unfold Config.WF at hw
  have rC0 : C.TIMER_CS ≤ C.TIMER_C0 ∧ C.TIMER_C0 ≤ C.TIMER_C3 := by omega
  have rCS : C.TIMER_CS ≤ C.TIMER_CS ∧ C.TIMER_CS ≤ C.TIMER_C3 := by omega
  intro n s0
  have hs0 : s0 = { s with systimer := { s.systimer with
      c0 := n + 5, c1 := n + 5, c2 := n + 5, c3 := n + 5 } } := by
    simp only [s0, mmio_write_systimer C hC s _ _ rC0, systimer_write_c0 C hC]
    rw [Nat.mod_eq_of_lt (by omega : n + 5 < 2 ^ 32)]
  have hcs : s0.systimer.cs = s.systimer.cs := by rw [hs0]
  have hcnt : s0.systimer.counter = s.systimer.counter := by rw [hs0]
  have hc0 : s0.systimer.c0 = n + 5 := by rw [hs0]
  have hclear : ∀ k, k ≤ 4 → (ticks k s0).systimer.cs.testBit 0 = false := by
    intro k hk
    apply ticks_bit0_stays_clear k s0 (by rw [hcs]; exact h0)
    intro j hj1 hj2
    rw [hcnt, hc0]
    omega
  have hfive : (ticks 5 s0).systimer.cs.testBit 0 = true := by
    have h4 := ticks_counter 4 s0
    rw [hcnt] at h4
    rw [ticks_succ 4 s0, tick_cs_bit0, ticks_c0, hc0]
    have : ((ticks 4 s0).systimer.counter + 1) % 2 ^ 16 = n + 5 := by omega
    simp only [this, decide_True, Bool.or_true]
  have hset : ∀ k, 5 ≤ k → (ticks k s0).systimer.cs.testBit 0 = true := by
    intro k hk
    obtain ⟨j, rfl⟩ := Nat.exists_eq_add_of_le hk
    rw [ticks_add]
    exact ticks_bit0_stays_set j _ hfive
  refine ⟨fun k _ hk => hclear k hk, hset, ?_⟩
  intro k _ u
  have hu : u = handle_systimer_write C (ticks k s0) C.TIMER_CS 0x1 := by
    simp only [u, mmio_write_systimer C hC _ _ _ rCS]
  have hub : u.systimer.cs.testBit 0 = false := by
    rw [hu, systimer_write_cs]
    exact not64_one_bit0 _
  refine ⟨hub, ?_⟩
  intro hne
  rw [tick_counter] at hne
  rw [tick_cs_bit0, hub]
  have : (u.systimer.counter + 1) % 2 ^ 16 ≠ u.systimer.c0 := by
    intro h; apply hne; rw [← h]; omega
  simp only [Bool.false_or, decide_eq_false_iff_not]
  exact this

theorem timer_match_edge_witness :
    let C : Config := bcm2837_config
    let s0 := bcm2837_mmio_write C initial_state C.TIMER_C0 (0 + 5)
    (ticks 4 s0).systimer.cs.testBit 0 = false ∧
    (ticks 5 s0).systimer.cs.testBit 0 = true ∧
    (ticks 9 s0).systimer.cs.testBit 0 = true ∧
    (bcm2837_mmio_write C (ticks 9 s0) C.TIMER_CS 0x1).systimer.cs.testBit 0 = false := by
  intro C s0
  have h := timer_match_edge C (by decide) initial_state (by decide) (by decide)
  exact ⟨h.1 4 (by decide) (by decide), h.2.1 5 (by decide), h.2.1 9 (by decide),
    (h.2.2 9 (by decide)).1⟩

/-! ## C7: the IRQ query -/

/-- C7: when bit 1 of `irqs_1_enabled` and bit 1 of `systimer.cs` are both
set, `bcm2837_is_irq_asserted` returns true (1); when `irqs_1_enabled` is 0
it returns false (0) whatever `systimer.cs` holds; and in every state it
returns true exactly when the read of `IRQ_BASIC_PENDING` is nonzero. -/
theorem irq_asserted_iff_basic_pending (C : Config) (hC : C.WF) (s : bcm2837_state) :
    (s.intctrl.irqs_1_enabled.testBit 1 = true → s.systimer.cs.testBit 1 = true →
      (bcm2837_is_irq_asserted C s).1 = 1) ∧
    (s.intctrl.irqs_1_enabled = 0 → (bcm2837_is_irq_asserted C s).1 = 0) ∧
    ((bcm2837_is_irq_asserted C s).1 = 1 ↔
      (bcm2837_mmio_read C s C.IRQ_BASIC_PENDING).1 ≠ 0) ∧
    ((bcm2837_is_irq_asserted C s).1 = 0 ↔
      (bcm2837_mmio_read C s C.IRQ_BASIC_PENDING).1 = 0) := by
  have hw := hC
  unfold Config.WF at hw
  have r : C.IRQ_BASIC_PENDING ≤ C.IRQ_BASIC_PENDING ∧
      C.IRQ_BASIC_PENDING ≤ C.DISABLE_BASIC_IRQS := by omega
  rw [mmio_read_intctrl C s _ r]
  have ha : (bcm2837_is_irq_asserted C s).1 =
      b2n (decide ((handle_intctrl_read C s C.IRQ_BASIC_PENDING).1 ≠ 0)) := rfl
  refine ⟨?_, ?_, ?_, ?_⟩
  · intro h1 h2
    have hp := pending_1_timer1 C s h1 h2
    rw [ha, intctrl_read_basic_pending]
    simp [hp, b2n]
  · intro h
    rw [ha, intctrl_read_basic_pending, pending_1_masked C s h]
    simp [b2n]
  · rw [ha, b2n_eq_one_iff, decide_eq_true_eq]
  · rw [ha, b2n_eq_zero_iff, decide_eq_false_iff_not, not_not]

theorem irq_asserted_iff_basic_pending_witness :
    let s : bcm2837_state :=
      { initial_state with
        intctrl := { initial_state.intctrl with irqs_1_enabled := 0x2 }
        systimer := { initial_state.systimer with cs := 0x2 } }
    let t : bcm2837_state :=
      { initial_state with systimer := { initial_state.systimer with cs := 0x2 } }
    (bcm2837_is_irq_asserted bcm2837_config s).1 = 1 ∧
    (bcm2837_is_irq_asserted bcm2837_config t).1 = 0 := by
  intro s t
  exact ⟨(irq_asserted_iff_basic_pending bcm2837_config (by decide) s).1 (by decide) (by decide),
    (irq_asserted_iff_basic_pending bcm2837_config (by decide) t).2.1 (by decide)⟩

/-! ## C8: the line-status register is read-to-clear -/

/-- C8: with the mini-UART enabled (and the overrun flag 0 or 1), the read of
`AUX_MU_LSR_REG` returns a value whose bit 0 is "RX queue nonempty", bit 1 is
the overrun flag `mu_rx_overrun`, bit 5 is "TX queue not full", bit 6 is "TX
queue empty" and whose other bits are 0; it sets `mu_rx_overrun` to 0 and
changes nothing else; so when the flag is set the first read reports bit 1
set and the read right after it reports bit 1 clear. -/
theorem lsr_read_to_clear (C : Config) (hC : C.WF) (s : bcm2837_state)
    (he : s.aux.aux_enables &&& 1 = 1) (hov : s.aux.mu_rx_overrun ≤ 1) :
    let r := bcm2837_mmio_read C s C.AUX_MU_LSR_REG
    (∀ i, r.1.testBit i =
      ((decide (i = 0) && !is_empty_fifo s.aux.mu_rx_fifo) ||
        (decide (i = 1) && decide (s.aux.mu_rx_overrun = 1)) ||
        (decide (i = 5) && !is_full_fifo C s.aux.mu_tx_fifo) ||
        (decide (i = 6) && is_empty_fifo s.aux.mu_tx_fifo))) ∧
    r.2 = { s with aux := { s.aux with mu_rx_overrun := 0 } } ∧
    (s.aux.mu_rx_overrun = 1 →
      r.1.testBit 1 = true ∧ (bcm2837_mmio_read C r.2 C.AUX_MU_LSR_REG).1.testBit 1 = false) := by
  have hw := hC
  unfold Config.WF at hw
  have rng : C.AUX_IRQ ≤ C.AUX_MU_LSR_REG ∧ C.AUX_MU_LSR_REG ≤ C.AUX_MU_BAUD_REG := by omega
  intro r
  have hf : s.aux.mu_rx_overrun = b2n (decide (s.aux.mu_rx_overrun = 1)) := by
    rcases Nat.le_one_iff_eq_zero_or_eq_one.1 hov with h | h <;> rw [h] <;> rfl
  have hr : r = (b2n (!is_empty_fifo s.aux.mu_rx_fifo) |||
        (b2n (decide (s.aux.mu_rx_overrun = 1)) <<< 1) |||
        (b2n (!is_full_fifo C s.aux.mu_tx_fifo) <<< 5) |||
        (b2n (is_empty_fifo s.aux.mu_tx_fifo) <<< 6),
        { s with aux := { s.aux with mu_rx_overrun := 0 } }) := by
    simp only [r, mmio_read_aux C hC s _ rng, aux_read_lsr C hC s he]
    rw [← hf]
  have hbits : ∀ i, r.1.testBit i =
      ((decide (i = 0) && !is_empty_fifo s.aux.mu_rx_fifo) ||
        (decide (i = 1) && decide (s.aux.mu_rx_overrun = 1)) ||
        (decide (i = 5) && !is_full_fifo C s.aux.mu_tx_fifo) ||
        (decide (i = 6) && is_empty_fifo s.aux.mu_tx_fifo)) := by
    intro i
    rw [hr]
    exact lsr_bits _ _ _ _ i
  refine ⟨hbits, by rw [hr], ?_⟩
  intro h1
  constructor
  · rw [hbits 1, h1]; simp
  · have he2 : r.2.aux.aux_enables &&& 1 = 1 := by rw [hr]; exact he
    rw [mmio_read_aux C hC r.2 _ rng, aux_read_lsr C hC r.2 he2, hr]
    simp only [Nat.testBit_or, Nat.testBit_shiftLeft, b2n_testBit]
    simp

theorem lsr_read_to_clear_witness :
    let C : Config := bcm2837_config
    let s : bcm2837_state :=
      { initial_state with aux := { initial_state.aux with
          aux_enables := 1, mu_rx_overrun := 1, mu_rx_fifo := ⟨[0x41]⟩ } }
    let r := bcm2837_mmio_read C s C.AUX_MU_LSR_REG
    r.1.testBit 1 = true ∧ (bcm2837_mmio_read C r.2 C.AUX_MU_LSR_REG).1.testBit 1 = false := by
  intro C s r
  exact (lsr_read_to_clear C (by decide) s (by decide) (by decide)).2.2 (by decide)

/-! ## C9: FIFO order through the data register -/

/-- C9: with the mini-UART enabled and DLAB clear, when the TX queue has room
for two bytes, `write(AUX_MU_IO_REG, b1)` then `write(AUX_MU_IO_REG, b2)`
appends `b1 & 0xff`, `b2 & 0xff` in that order to the back of the TX queue
and changes nothing else; and when the RX queue holds `b1`, `b2` at its
front, two successive reads of `AUX_MU_IO_REG` return `b1` then `b2` and
remove exactly those two bytes from the RX queue. -/
theorem uart_fifo_order (C : Config) (hC : C.WF) (s : bcm2837_state) (b1 b2 : Nat)
    (he : s.aux.aux_enables &&& 1 = 1) (hd : s.aux.aux_mu_lcr &&& LCR_DLAB = 0) :
    (used_of_fifo s.aux.mu_tx_fifo + 2 ≤ C.FIFO_SIZE →
      bcm2837_mmio_write C (bcm2837_mmio_write C s C.AUX_MU_IO_REG b1) C.AUX_MU_IO_REG b2 =
        { s with aux := { s.aux with
            mu_tx_fifo := ⟨s.aux.mu_tx_fifo.items ++ [b1 &&& 0xff, b2 &&& 0xff]⟩ } }) ∧
    (∀ rest, s.aux.mu_rx_fifo.items = b1 :: b2 :: rest →
      let r1 := bcm2837_mmio_read C s C.AUX_MU_IO_REG
      let r2 := bcm2837_mmio_read C r1.2 C.AUX_MU_IO_REG
      r1.1 = b1 ∧ r2.1 = b2 ∧
        r2.2 = { s with aux := { s.aux with mu_rx_fifo := ⟨rest⟩ } }) := by
  have hw := hC
  unfold Config.WF at hw
  have rng : C.AUX_IRQ ≤ C.AUX_MU_IO_REG ∧ C.AUX_MU_IO_REG ≤ C.AUX_MU_BAUD_REG := by omega
  constructor
  · intro hroom
    unfold used_of_fifo at hroom
    have step : ∀ (t : bcm2837_state) (b : Nat), t.aux.aux_enables &&& 1 = 1 →
        t.aux.aux_mu_lcr &&& LCR_DLAB = 0 → t.aux.mu_tx_fifo.items.length < C.FIFO_SIZE →
        bcm2837_mmio_write C t C.AUX_MU_IO_REG b =
          { t with aux := { t.aux with
              mu_tx_fifo := ⟨t.aux.mu_tx_fifo.items ++ [b &&& 0xff]⟩ } } := by
      intro t b h1 h2 h3
      rw [mmio_write_aux C hC t _ _ rng, aux_write_io_data C hC t _ h1 h2,
        enqueue_fifo_room C _ _ h3]
    have e1 := step s b1 he hd (by omega)
    have e2 := step (bcm2837_mmio_write C s C.AUX_MU_IO_REG b1) b2
      (by rw [e1]; exact he) (by rw [e1]; exact hd)
      (by rw [e1]; simp only [List.length_append, List.length_singleton]; omega)
    rw [e2, e1]
    simp only [List.append_assoc, List.singleton_append]
  · intro rest hrx r1 r2
    have h1 : r1 = (b1, { s with aux := { s.aux with mu_rx_fifo := ⟨b2 :: rest⟩ } }) := by
      simp only [r1, mmio_read_aux C hC s _ rng, aux_read_io_data C hC s b1 _ he hd hrx]
    have h2 : r2 = (b2, { s with aux := { s.aux with mu_rx_fifo := ⟨rest⟩ } }) := by
      simp only [r2, h1, mmio_read_aux C hC _ _ rng]
      exact aux_read_io_data C hC
        { s with aux := { s.aux with mu_rx_fifo := ⟨b2 :: rest⟩ } } b2 rest he hd rfl
    rw [h1, h2]
    exact ⟨rfl, rfl, rfl⟩

theorem uart_fifo_order_witness :
    let C : Config := bcm2837_config
    let s : bcm2837_state :=
      { initial_state with aux := { initial_state.aux with
          aux_enables := 1, mu_rx_fifo := ⟨[0x41, 0x42]⟩ } }
    bcm2837_mmio_write C (bcm2837_mmio_write C s C.AUX_MU_IO_REG 0x141) C.AUX_MU_IO_REG 0x42 =
        { s with aux := { s.aux with
            mu_tx_fifo := ⟨s.aux.mu_tx_fifo.items ++ [0x141 &&& 0xff, 0x42 &&& 0xff]⟩ } } ∧
      (bcm2837_mmio_read C s C.AUX_MU_IO_REG).1 = 0x41 ∧
      (bcm2837_mmio_read C (bcm2837_mmio_read C s C.AUX_MU_IO_REG).2 C.AUX_MU_IO_REG).1 = 0x42 := by
  intro C s
  exact ⟨(uart_fifo_order C (by decide) s 0x141 0x42 (by decide) (by decide)).1 (by decide),
    ((uart_fifo_order C (by decide) s 0x41 0x42 (by decide) (by decide)).2 [] rfl).1,
    ((uart_fifo_order C (by decide) s 0x41 0x42 (by decide) (by decide)).2 [] rfl).2.1⟩

/-! ## C10: the mini-UART enable gate -/

/-- C10: while bit 0 of `aux_enables` is clear, for every address in
`AUX_MU_IO_REG .. AUX_MU_BAUD_REG` and every value, `handle_aux_read` returns
0 and leaves the whole state as it is and `handle_aux_write` leaves the whole
state as it is (the same through the dispatcher); and in every state
`write(AUX_ENABLES, v)` followed by `read(AUX_ENABLES)` returns `v & 0xff`. -/
theorem mini_uart_gate (C : Config) (hC : C.WF) (s : bcm2837_state) (a v : Nat) :
    (s.aux.aux_enables &&& 1 = 0 → C.AUX_MU_IO_REG ≤ a → a ≤ C.AUX_MU_BAUD_REG →
      handle_aux_read C s a = (0, s) ∧ handle_aux_write C s a v = s ∧
      bcm2837_mmio_read C s a = (0, s) ∧ bcm2837_mmio_write C s a v = s) ∧
    bcm2837_mmio_read C (bcm2837_mmio_write C s C.AUX_ENABLES v) C.AUX_ENABLES =
      (v &&& 0xff, bcm2837_mmio_write C s C.AUX_ENABLES v) := by
  have hw := hC
  unfold Config.WF at hw
  have rng : C.AUX_IRQ ≤ C.AUX_ENABLES ∧ C.AUX_ENABLES ≤ C.AUX_MU_BAUD_REG := by omega
  constructor
  · intro h0 h1 h2
    have hmu : ADDR_IN_AUX_MU C a = true := by simp [ADDR_IN_AUX_MU, h1, h2]
    have hr : handle_aux_read C s a = (0, s) := by
      unfold handle_aux_read
      rw [if_pos ⟨h0, hmu⟩]
    have hwr : handle_aux_write C s a v = s := by
      unfold handle_aux_write
      rw [if_pos ⟨h0, hmu⟩]
    have ra : C.AUX_IRQ ≤ a ∧ a ≤ C.AUX_MU_BAUD_REG := by omega
    exact ⟨hr, hwr, by rw [mmio_read_aux C hC s a ra, hr], by rw [mmio_write_aux C hC s a v ra, hwr]⟩
  · rw [mmio_read_aux C hC _ _ rng, aux_read_enables C hC, mmio_write_aux C hC _ _ _ rng,
      aux_write_enables C hC]
    have h : v % 2 ^ 8 = v &&& 0xff := (Nat.and_pow_two_sub_one_eq_mod v 8).symm
    simp only [h]

theorem mini_uart_gate_witness :
    let C : Config := bcm2837_config
    let s : bcm2837_state :=
      { initial_state with aux := { initial_state.aux with
          aux_mu_lcr := 0x80, mu_rx_overrun := 1, mu_rx_fifo := ⟨[0x41]⟩ } }
    (handle_aux_read C s C.AUX_MU_IO_REG = (0, s) ∧
      handle_aux_write C s C.AUX_MU_IO_REG 0x55 = s) ∧
    (bcm2837_mmio_read C (bcm2837_mmio_write C s C.AUX_ENABLES 0x1ff) C.AUX_ENABLES).1 = 0xff := by
  intro C s
  have h1 := (mini_uart_gate C (by decide) s C.AUX_MU_IO_REG 0x55).1
    (by decide) (by decide) (by decide)
  have h2 := (mini_uart_gate C (by decide) s C.AUX_ENABLES 0x1ff).2
  exact ⟨⟨h1.1, h1.2.1⟩, (congrArg Prod.fst h2).trans (by decide)⟩

/-! ## C11: the AUX interrupt status -/

/-- C11: after `write(AUX_ENABLES, 1)` on the initial state the mini-UART is
enabled and no cause is active (the read of `AUX_MU_IIR_REG` is `0xc1`, bit 0
set), yet the read of `AUX_IRQ` returns 1: the handler applies `~` to the
no-interrupt bit, and the complement of 0 or 1 is never zero. -/
theorem aux_irq_pending_without_cause :
    let C : Config := bcm2837_config
    let s := bcm2837_mmio_write C initial_state C.AUX_ENABLES 1
    s.aux.aux_enables &&& 1 = 1 ∧
    (bcm2837_mmio_read C s C.AUX_MU_IIR_REG).1 = 0xc1 ∧
    (bcm2837_mmio_read C s C.AUX_MU_IIR_REG).1.testBit 0 = true ∧
    (bcm2837_mmio_read C s C.AUX_IRQ).1 = 1 := by
  decide

/-! ## C12: the interrupt-identification register -/

/-- C12, as stated, fails: with the mini-UART enabled, IER 1 and a byte in the
RX queue only the rx cause holds, and the read of `AUX_MU_IIR_REG` is `0xc4`,
whose cause id at bits 1-2 is 2, not 1. -/
theorem iir_rx_only_reports_id_2 :
    let C : Config := bcm2837_config
    let s : bcm2837_state :=
      { initial_state with aux := { initial_state.aux with
          aux_enables := 1, aux_mu_ier := 0x1, mu_rx_fifo := ⟨[0x41]⟩ } }
    s.WF ∧ s.aux.aux_enables &&& 1 = 1 ∧
    (s.aux.aux_mu_ier.testBit 0 = true ∧ is_empty_fifo s.aux.mu_rx_fifo = false) ∧
    s.aux.aux_mu_ier.testBit 1 = false ∧
    (bcm2837_mmio_read C s C.AUX_MU_IIR_REG).1 = 0xc4 ∧
    ((bcm2837_mmio_read C s C.AUX_MU_IIR_REG).1 >>> 1) &&& 0x3 = 2 := by
  decide

/-- C12, amended: with the mini-UART enabled, tx-cause = (IER bit 1 set and TX
queue empty) and rx-cause = (IER bit 0 set and RX queue nonempty), the read of
`AUX_MU_IIR_REG` has bits 6 and 7 set, bit 0 set exactly when neither cause
holds, and a cause id at bits 1-2 that is 0 when neither cause holds, 1 when
tx-cause holds (alone or together with rx-cause) and 2 when only rx-cause
holds; bits 3-5 and all bits above 7 are 0, and the read leaves the state as
it is. -/
theorem iir_cause_identification (C : Config) (hC : C.WF) (s : bcm2837_state)
    (he : s.aux.aux_enables &&& 1 = 1) :
    let tx_cause := s.aux.aux_mu_ier.testBit 1 && is_empty_fifo s.aux.mu_tx_fifo
    let rx_cause := s.aux.aux_mu_ier.testBit 0 && !is_empty_fifo s.aux.mu_rx_fifo
    let r := bcm2837_mmio_read C s C.AUX_MU_IIR_REG
    r.1.testBit 6 = true ∧ r.1.testBit 7 = true ∧
      r.1.testBit 0 = !(tx_cause || rx_cause) ∧
      (r.1 >>> 1) &&& 0x3 = (if tx_cause then 1 else if rx_cause then 2 else 0) ∧
      r.1 &&& 0x38 = 0 ∧ r.1 < 2 ^ 8 ∧ r.2 = s := by
  have hw := hC
  unfold Config.WF at hw
  have rng : C.AUX_IRQ ≤ C.AUX_MU_IIR_REG ∧ C.AUX_MU_IIR_REG ≤ C.AUX_MU_BAUD_REG := by omega
  intro tx_cause rx_cause r
  have h2 : decide (s.aux.aux_mu_ier &&& 0x2 ≠ 0) = s.aux.aux_mu_ier.testBit 1 := by
    rw [Bool.eq_iff_iff, decide_eq_true_eq]; exact and_two_ne_zero_iff _
  have h1 : decide (s.aux.aux_mu_ier &&& 0x1 ≠ 0) = s.aux.aux_mu_ier.testBit 0 := by
    rw [Bool.eq_iff_iff, decide_eq_true_eq]; exact and_one_ne_zero_iff _
  have hr : r = (aux_mu_iir_value s, s) := by
    simp only [r, mmio_read_aux C hC s _ rng, aux_read_iir C hC s he]
  have hp := iir_pack tx_cause rx_cause
  have hv : r.1 = (let int_id := b2n tx_cause ||| (b2n rx_cause <<< 1)
      let int_id := if int_id = 0x3 then 0x1 else int_id
      b2n (decide (int_id = 0)) ||| (int_id <<< 1) ||| (0x3 <<< 6)) := by
    rw [hr]
    simp only [aux_mu_iir_value, h1, h2, tx_cause, rx_cause]
  rw [hv]
  exact ⟨hp.1, hp.2.1, hp.2.2.1, hp.2.2.2.1, hp.2.2.2.2.1, hp.2.2.2.2.2, by rw [hr]⟩

theorem iir_cause_identification_witness :
    let C : Config := bcm2837_config
    let s : bcm2837_state :=
      { initial_state with aux := { initial_state.aux with
          aux_enables := 1, aux_mu_ier := 0x3, mu_rx_fifo := ⟨[0x41]⟩ } }
    let r := bcm2837_mmio_read C s C.AUX_MU_IIR_REG
    r.1.testBit 0 = false ∧ (r.1 >>> 1) &&& 0x3 = 1 ∧ r.2 = s := by
  have h := iir_cause_identification bcm2837_config (by decide)
    { initial_state with aux := { initial_state.aux with
        aux_enables := 1, aux_mu_ier := 0x3, mu_rx_fifo := ⟨[0x41]⟩ } } (by decide)
  exact ⟨h.2.2.1.trans (by decide), h.2.2.2.1.trans (by decide), h.2.2.2.2.2.2⟩

/-! ## C13: the pending register -/

/-- C13: in a state whose `irqs_1_enabled` has bit 25 set and whose mini-UART
is enabled (so that the `AUX_IRQ` read has bit 0 set), the read of
`IRQ_PENDING_1` has bit 25 clear and bit 57 set: the UART signal is gated by
enable bit `57 - 32` and then shifted by 57. -/
theorem pending_1_uart_at_bit_57 :
    let C : Config := bcm2837_config
    let s : bcm2837_state :=
      { initial_state with
        intctrl := { initial_state.intctrl with irqs_1_enabled := 0x2000000 }
        aux := { initial_state.aux with aux_enables := 1 } }
    s.WF ∧ s.intctrl.irqs_1_enabled.testBit 25 = true ∧
    (bcm2837_mmio_read C s C.AUX_IRQ).1.testBit 0 = true ∧
    (bcm2837_mmio_read C s C.IRQ_PENDING_1).1.testBit 25 = false ∧
    (bcm2837_mmio_read C s C.IRQ_PENDING_1).1.testBit 57 = true ∧
    (bcm2837_mmio_read C s C.IRQ_PENDING_1).1 = 2 ^ 57 := by
  decide

/-! ## C14: frame of a system-timer write -/

/-- C14: from the initial state, `write(TIMER_CS, 0x1)` sets `c0 .. c3` to 1
and `write(TIMER_C0, 0x5)` sets `c1 .. c3` to 5 as well: control falls through
every later label of the switch of `handle_systimer_write`. -/
theorem systimer_write_falls_through :
    let C : Config := bcm2837_config
    let a := bcm2837_mmio_write C initial_state C.TIMER_CS 0x1
    let b := bcm2837_mmio_write C initial_state C.TIMER_C0 0x5
    initial_state.systimer.c0 = 0 ∧ a.systimer.c0 = 1 ∧ a.systimer.c1 = 1 ∧
    a.systimer.c2 = 1 ∧ a.systimer.c3 = 1 ∧
    b.systimer.c0 = 5 ∧ initial_state.systimer.c1 = 0 ∧ b.systimer.c1 = 5 ∧
    b.systimer.c2 = 5 ∧ b.systimer.c3 = 5 := by
  decide

/-! ## C15: the timer status bits are sticky -/

/-- C15: for a board state, a bit position `k` and one call `op` among
`bcm2837_timer_tick`, `bcm2837_mmio_read(a)` and `bcm2837_mmio_write(a, v)`:
if bit `k` of `systimer.cs` is set before the call, and the call is not a
write to `TIMER_CS` of a value with bit `k` set, then bit `k` is still set
after it.  A write to `TIMER_CS` with a 0 in position `k` is such a call. -/
theorem cs_bit_sticky (C : Config) (hC : C.WF) (s : bcm2837_state) (hs : s.WF) (k : Nat)
    (op : board_op) (hk : s.systimer.cs.testBit k = true)
    (hop : ∀ v, op = board_op.mmio_write C.TIMER_CS v → v.testBit k = false) :
    (op.apply C s).systimer.cs.testBit k = true := by
  have hcs : s.systimer.cs < 2 ^ 32 := by
    unfold bcm2837_state.WF at hs
    exact hs.2.2.2.2.2.2.2.2.2.2.2.2.2.2.2.2.1
  have hk32 : k < 32 := testBit_index_lt _ _ _ hcs hk
  cases op with
  | mmio_read a =>
    show (bcm2837_mmio_read C s a).2.systimer.cs.testBit k = true
    rw [(mmio_read_frame C s a).2]; exact hk
  | timer_tick => exact tick_cs_bit s k hk32 hk
  | mmio_write a v =>
    show (bcm2837_mmio_write C s a v).systimer.cs.testBit k = true
    by_cases ha : a = C.TIMER_CS
    · subst ha
      have hv := hop v rfl
      rw [mmio_write_cs C hC, Nat.testBit_mod_two_pow, Nat.testBit_and, not64_testBit, hk, hv]
      have : k < 64 := by omega
      simp [hk32, this]
    · rw [mmio_write_cs_other C s a v ha]; exact hk

theorem cs_bit_sticky_witness :
    let C : Config := bcm2837_config
    let s : bcm2837_state :=
      { initial_state with systimer := { initial_state.systimer with cs := 0x1 } }
    ((board_op.mmio_write C.TIMER_CS 0x2).apply C s).systimer.cs.testBit 0 = true ∧
    (board_op.timer_tick.apply C s).systimer.cs.testBit 0 = true := by
  intro C s
  exact ⟨cs_bit_sticky C (by decide) s (by decide) 0 (board_op.mmio_write C.TIMER_CS 0x2)
      (by decide) (fun v h => (board_op.mmio_write.inj h).2 ▸ (by decide)),
    cs_bit_sticky C (by decide) s (by decide) 0 board_op.timer_tick
      (by decide) (fun _ h => board_op.noConfusion h)⟩

/-! ## C16: the effect of a tick -/

/-- C16: `bcm2837_timer_tick` sets `counter` to `(counter + 1) mod 2^64`, sets
`cs` to `cs OR m` where `m` is the 4-bit vector whose bit `i` is set exactly
when the low 16 bits of the new counter equal the compare register `ci`, and
changes no other field; afterwards the reads of `TIMER_CLO` and `TIMER_CHI`
give the low and the high 32 bits of the incremented counter. -/
theorem timer_tick_effect (C : Config) (hC : C.WF) (s : bcm2837_state) (hs : s.WF) :
    let t := bcm2837_timer_tick s
    let lo16 := t.systimer.counter % 2 ^ 16
    t.systimer.counter = (s.systimer.counter + 1) % 2 ^ 64 ∧
    (∃ m, m < 2 ^ 4 ∧
      m.testBit 0 = decide (lo16 = s.systimer.c0) ∧
      m.testBit 1 = decide (lo16 = s.systimer.c1) ∧
      m.testBit 2 = decide (lo16 = s.systimer.c2) ∧
      m.testBit 3 = decide (lo16 = s.systimer.c3) ∧
      t = { s with systimer := { s.systimer with
              counter := (s.systimer.counter + 1) % 2 ^ 64
              cs := s.systimer.cs ||| m } }) ∧
    (bcm2837_mmio_read C t C.TIMER_CLO).1 = t.systimer.counter % 2 ^ 32 ∧
    (bcm2837_mmio_read C t C.TIMER_CHI).1 = t.systimer.counter / 2 ^ 32 := by
  have hw := hC
  unfold Config.WF at hw
  have hcs : s.systimer.cs < 2 ^ 32 := by
    unfold bcm2837_state.WF at hs
    exact hs.2.2.2.2.2.2.2.2.2.2.2.2.2.2.2.2.1
  have rlo : C.TIMER_CS ≤ C.TIMER_CLO ∧ C.TIMER_CLO ≤ C.TIMER_C3 := by omega
  have rhi : C.TIMER_CS ≤ C.TIMER_CHI ∧ C.TIMER_CHI ≤ C.TIMER_C3 := by omega
  intro t lo16
  have hc : t.systimer.counter = (s.systimer.counter + 1) % 2 ^ 64 := rfl
  have hlo : lo16 = (s.systimer.counter + 1) % 2 ^ 16 := by
    simp only [lo16, hc]; omega
  refine ⟨hc, ?_, ?_, ?_⟩
  · have hb := tick_matched_bits (decide (lo16 = s.systimer.c0)) (decide (lo16 = s.systimer.c1))
      (decide (lo16 = s.systimer.c2)) (decide (lo16 = s.systimer.c3))
    refine ⟨_, tick_matched_lt _ _ _ _, hb.1, hb.2.1, hb.2.2.1, hb.2.2.2, ?_⟩
    rw [hlo]
    exact tick_eq s hcs
  · rw [mmio_read_systimer C hC t _ rlo, systimer_read_clo C hC]
    exact Nat.and_pow_two_sub_one_eq_mod _ 32
  · rw [mmio_read_systimer C hC t _ rhi, systimer_read_chi C hC]
    exact Nat.shiftRight_eq_div_pow _ 32

theorem timer_tick_effect_witness :
    let C : Config := bcm2837_config
    let t := bcm2837_timer_tick initial_state
    t.systimer.counter = 1 ∧ (bcm2837_mmio_read C t C.TIMER_CLO).1 = 1 ∧
    (bcm2837_mmio_read C t C.TIMER_CHI).1 = 0 := by
  intro C t
  have h := timer_tick_effect C (by decide) initial_state (by decide)
  exact ⟨h.1.trans (by decide), h.2.2.1.trans (by decide), h.2.2.2.trans (by decide)⟩

/-! ## C17: the extended status register -/

/-- C17: with the mini-UART enabled (and the overrun flag 0 or 1), the read of
`AUX_MU_STAT_REG` returns exactly: bit 0 = RX queue nonempty, bit 1 = TX queue
not full, bit 2 = RX queue empty, bit 3 = TX queue not empty, bit 4 = overrun
flag, bit 5 = TX queue full, bit 8 = TX queue empty, bit 9 = RX and TX queues
both empty, bits 16-23 = min(RX occupancy, 8), bits 24-31 = min(TX occupancy,
8), every other bit 0; and the read leaves the state as it is. -/
theorem stat_read_composite (C : Config) (hC : C.WF) (s : bcm2837_state)
    (he : s.aux.aux_enables &&& 1 = 1) (hov : s.aux.mu_rx_overrun ≤ 1) :
    let r := bcm2837_mmio_read C s C.AUX_MU_STAT_REG
    let rx_empty := is_empty_fifo s.aux.mu_rx_fifo
    let tx_empty := is_empty_fifo s.aux.mu_tx_fifo
    let tx_full := is_full_fifo C s.aux.mu_tx_fifo
    let rx_level := min (used_of_fifo s.aux.mu_rx_fifo) 8
    let tx_level := min (used_of_fifo s.aux.mu_tx_fifo) 8
    (∀ i, r.1.testBit i =
      ((decide (i = 0) && !rx_empty) || (decide (i = 1) && !tx_full) ||
        (decide (i = 2) && rx_empty) || (decide (i = 3) && !tx_empty) ||
        (decide (i = 4) && decide (s.aux.mu_rx_overrun = 1)) || (decide (i = 5) && tx_full) ||
        (decide (i = 8) && tx_empty) || (decide (i = 9) && (rx_empty && tx_empty)) ||
        (decide (16 ≤ i ∧ i < 24) && rx_level.testBit (i - 16)) ||
        (decide (24 ≤ i ∧ i < 32) && tx_level.testBit (i - 24)))) ∧
    (r.1 >>> 16) &&& 0xff = rx_level ∧ (r.1 >>> 24) &&& 0xff = tx_level ∧ r.2 = s := by
  have hw := hC
  unfold Config.WF at hw
  have rng : C.AUX_IRQ ≤ C.AUX_MU_STAT_REG ∧ C.AUX_MU_STAT_REG ≤ C.AUX_MU_BAUD_REG := by omega
  intro r rx_empty tx_empty tx_full rx_level tx_level
  have hf : s.aux.mu_rx_overrun = b2n (decide (s.aux.mu_rx_overrun = 1)) := by
    rcases Nat.le_one_iff_eq_zero_or_eq_one.1 hov with h | h <;> rw [h] <;> rfl
  have hlr : rx_level < 2 ^ 8 := lt_of_le_of_lt (Nat.min_le_right _ _) (by norm_num)
  have hlt : tx_level < 2 ^ 8 := lt_of_le_of_lt (Nat.min_le_right _ _) (by norm_num)
  have hr : r = (b2n (!rx_empty) ||| (b2n (!tx_full) <<< 1) ||| (b2n rx_empty <<< 2) |||
      (b2n (!tx_empty) <<< 3) ||| (b2n (decide (s.aux.mu_rx_overrun = 1)) <<< 4) |||
      (b2n tx_full <<< 5) ||| (b2n tx_empty <<< 8) ||| (b2n (rx_empty && tx_empty) <<< 9) |||
      (rx_level <<< 16) ||| (tx_level <<< 24), s) := by
    simp only [r, mmio_read_aux C hC s _ rng, aux_read_stat C hC s he, b2n_not_eq_zero, b2n_and]
    rw [← hf]
  have hfld := stat_fields (!rx_empty) (!tx_full) rx_empty (!tx_empty)
    (decide (s.aux.mu_rx_overrun = 1)) tx_full tx_empty rx_level tx_level hlr hlt
  rw [hr]
  exact ⟨fun i => stat_bits _ _ _ _ _ _ _ _ _ i hlr hlt, hfld.1, hfld.2, rfl⟩

theorem stat_read_composite_witness :
    let C : Config := bcm2837_config
    let s : bcm2837_state :=
      { initial_state with aux := { initial_state.aux with
          aux_enables := 1, mu_rx_overrun := 1, mu_rx_fifo := ⟨[0x41, 0x42]⟩ } }
    let r := bcm2837_mmio_read C s C.AUX_MU_STAT_REG
    (r.1 >>> 16) &&& 0xff = 2 ∧ (r.1 >>> 24) &&& 0xff = 0 ∧ r.1.testBit 4 = true ∧ r.2 = s := by
  have h := stat_read_composite bcm2837_config (by decide)
    { initial_state with aux := { initial_state.aux with
        aux_enables := 1, mu_rx_overrun := 1, mu_rx_fifo := ⟨[0x41, 0x42]⟩ } }
    (by decide) (by decide)
  exact ⟨h.2.1.trans (by decide), h.2.2.1.trans (by decide), (h.1 4).trans (by decide),
    h.2.2.2⟩

/-! ## C18: accesses under the divisor latch -/

/-- C18, as stated, fails: with the mini-UART enabled, DLAB set and the divisor
`0x1234`, the read of `AUX_MU_IER_REG` returns the high byte `0x12` and the
write of `0x56` to it sets the high byte, but both leave DLAB set. -/
theorem dlab_ier_access_keeps_latch :
    let C : Config := bcm2837_config
    let s : bcm2837_state :=
      { initial_state with aux := { initial_state.aux with
          aux_enables := 1, aux_mu_lcr := 0x80, aux_mu_baud := 0x1234 } }
    s.WF ∧ s.aux.aux_enables &&& 1 = 1 ∧ s.aux.aux_mu_lcr &&& LCR_DLAB ≠ 0 ∧
    (bcm2837_mmio_read C s C.AUX_MU_IER_REG).1 = 0x12 ∧
    (bcm2837_mmio_read C s C.AUX_MU_IER_REG).2.aux.aux_mu_lcr &&& LCR_DLAB ≠ 0 ∧
    (bcm2837_mmio_write C s C.AUX_MU_IER_REG 0x56).aux.aux_mu_baud = 0x5634 ∧
    (bcm2837_mmio_write C s C.AUX_MU_IER_REG 0x56).aux.aux_mu_lcr &&& LCR_DLAB ≠ 0 := by
  decide

/-- C18, amended: with the mini-UART enabled and DLAB set, each of the four
accesses is diverted to the baud divisor and touches neither the stored IER
nor the queues: `read(AUX_MU_IO_REG)` returns the low byte and
`write(AUX_MU_IO_REG, v)` sets it, and these two leave DLAB clear;
`read(AUX_MU_IER_REG)` returns the divisor shifted right by 8 and changes
nothing, `write(AUX_MU_IER_REG, v)` sets the high byte and changes nothing
else, and these two leave DLAB set. -/
theorem dlab_diverted_accesses (C : Config) (hC : C.WF) (s : bcm2837_state) (v : Nat)
    (he : s.aux.aux_enables &&& 1 = 1) (hd : s.aux.aux_mu_lcr &&& LCR_DLAB ≠ 0) :
    let rio := bcm2837_mmio_read C s C.AUX_MU_IO_REG
    let wio := bcm2837_mmio_write C s C.AUX_MU_IO_REG v
    let rier := bcm2837_mmio_read C s C.AUX_MU_IER_REG
    let wier := bcm2837_mmio_write C s C.AUX_MU_IER_REG v
    (rio.1 = s.aux.aux_mu_baud &&& 0xff ∧
      rio.2 = { s with aux := { s.aux with
        aux_mu_lcr := (s.aux.aux_mu_lcr &&& not32 LCR_DLAB) % 2 ^ 8 } } ∧
      rio.2.aux.aux_mu_lcr &&& LCR_DLAB = 0) ∧
    (wio = { s with aux := { s.aux with
        aux_mu_lcr := (s.aux.aux_mu_lcr &&& not32 LCR_DLAB) % 2 ^ 8
        aux_mu_baud := ((s.aux.aux_mu_baud &&& 0xff00) ||| (v &&& 0xff)) % 2 ^ 16 } } ∧
      wio.aux.aux_mu_lcr &&& LCR_DLAB = 0) ∧
    (rier.1 = s.aux.aux_mu_baud >>> 8 ∧ rier.2 = s) ∧
    (wier = { s with aux := { s.aux with
        aux_mu_baud := ((s.aux.aux_mu_baud &&& 0xff) ||| ((v &&& 0xff) <<< 8)) % 2 ^ 16 } } ∧
      wier.aux.aux_mu_lcr &&& LCR_DLAB ≠ 0) := by
  have hw := hC
  unfold Config.WF at hw
  have rI : C.AUX_IRQ ≤ C.AUX_MU_IO_REG ∧ C.AUX_MU_IO_REG ≤ C.AUX_MU_BAUD_REG := by omega
  have rE : C.AUX_IRQ ≤ C.AUX_MU_IER_REG ∧ C.AUX_MU_IER_REG ≤ C.AUX_MU_BAUD_REG := by omega
  intro rio wio rier wier
  have h1 : rio = (s.aux.aux_mu_baud &&& 0xff, { s with aux := { s.aux with
      aux_mu_lcr := (s.aux.aux_mu_lcr &&& not32 LCR_DLAB) % 2 ^ 8 } }) := by
    simp only [rio, mmio_read_aux C hC s _ rI, aux_read_io_dlab C hC s he hd]
  have h2 : wio = { s with aux := { s.aux with
      aux_mu_lcr := (s.aux.aux_mu_lcr &&& not32 LCR_DLAB) % 2 ^ 8
      aux_mu_baud := ((s.aux.aux_mu_baud &&& 0xff00) ||| (v &&& 0xff)) % 2 ^ 16 } } := by
    simp only [wio, mmio_write_aux C hC s _ _ rI, aux_write_io_dlab C hC s _ he hd]
  have h3 : rier = (s.aux.aux_mu_baud >>> 8, s) := by
    simp only [rier, mmio_read_aux C hC s _ rE, aux_read_ier_dlab C hC s he hd]
  have h4 : wier = { s with aux := { s.aux with
      aux_mu_baud := ((s.aux.aux_mu_baud &&& 0xff) ||| ((v &&& 0xff) <<< 8)) % 2 ^ 16 } } := by
    simp only [wier, mmio_write_aux C hC s _ _ rE, aux_write_ier_dlab C hC s _ he hd]
  refine ⟨⟨by rw [h1], by rw [h1], ?_⟩, ⟨h2, ?_⟩, ⟨by rw [h3], by rw [h3]⟩, ⟨h4, ?_⟩⟩
  · rw [h1]; exact dlab_bit_cleared _
  · rw [h2]; exact dlab_bit_cleared _
  · rw [h4]; exact hd

theorem dlab_diverted_accesses_witness :
    let C : Config := bcm2837_config
    let s : bcm2837_state :=
      { initial_state with aux := { initial_state.aux with
          aux_enables := 1, aux_mu_lcr := 0x80, aux_mu_baud := 0x1234 } }
    (bcm2837_mmio_read C s C.AUX_MU_IO_REG).1 = 0x34 ∧
    (bcm2837_mmio_read C s C.AUX_MU_IO_REG).2.aux.aux_mu_lcr &&& LCR_DLAB = 0 ∧
    (bcm2837_mmio_write C s C.AUX_MU_IER_REG 0x56).aux.aux_mu_lcr &&& LCR_DLAB ≠ 0 := by
  intro C s
  have h := dlab_diverted_accesses C (by decide) s 0x56 (by decide) (by decide)
  exact ⟨h.1.1.trans (by decide), h.1.2.2, h.2.2.2.2⟩

/-! ## C19: no IRQ from the initial state -/

/-- C19: in every state reached from `initial_state` by a finite sequence of
`bcm2837_mmio_write`, `bcm2837_mmio_read` and `bcm2837_timer_tick` calls with
arbitrary addresses and values, the three enabled masks are 0, the reads of
`IRQ_PENDING_1` and `IRQ_BASIC_PENDING` return 0 and `bcm2837_is_irq_asserted`
returns false. -/
theorem no_irq_from_initial_state (C : Config) (hC : C.WF) (ops : List board_op) :
    let s := run_ops C initial_state ops
    s.intctrl.irqs_1_enabled = 0 ∧ s.intctrl.irqs_2_enabled = 0 ∧
    s.intctrl.basic_irqs_enabled = 0 ∧
    (bcm2837_mmio_read C s C.IRQ_PENDING_1).1 = 0 ∧
    (bcm2837_mmio_read C s C.IRQ_BASIC_PENDING).1 = 0 ∧
    (bcm2837_is_irq_asserted C s).1 = 0 := by
  have hw := hC
  unfold Config.WF at hw
  intro s
  have hz := run_keeps_masks_zero C ops initial_state ⟨rfl, rfl, rfl⟩
  have hp := pending_1_masked C s hz.1
  have hb : handle_intctrl_read C s C.IRQ_BASIC_PENDING = (0, s) := by
    rw [intctrl_read_basic_pending, hp]; rfl
  refine ⟨hz.1, hz.2.1, hz.2.2, ?_, ?_, ?_⟩
  · rw [mmio_read_intctrl C s _ (by omega), intctrl_read_pending_1 C hC, hp]
  · rw [mmio_read_intctrl C s _ (by omega), hb]
  · show b2n (decide ((handle_intctrl_read C s C.IRQ_BASIC_PENDING).1 ≠ 0)) = 0
    rw [hb]; rfl

theorem no_irq_from_initial_state_witness :
    let C : Config := bcm2837_config
    let s := run_ops C initial_state
      [board_op.mmio_write C.ENABLE_IRQS_1 0xffffffff, board_op.mmio_write C.TIMER_C1 0x1,
        board_op.timer_tick, board_op.mmio_write C.AUX_ENABLES 0x1]
    s.systimer.cs.testBit 1 = true ∧ s.intctrl.irqs_1_enabled = 0 ∧
    (bcm2837_is_irq_asserted C s).1 = 0 := by
  have h := no_irq_from_initial_state bcm2837_config (by decide)
    [board_op.mmio_write bcm2837_config.ENABLE_IRQS_1 0xffffffff,
      board_op.mmio_write bcm2837_config.TIMER_C1 0x1,
      board_op.timer_tick, board_op.mmio_write bcm2837_config.AUX_ENABLES 0x1]
  exact ⟨by decide, h.1, h.2.2.2.2.2⟩

/-! ## C20: reads without side effects -/

/-- C20: `bcm2837_is_irq_asserted`, `bcm2837_is_fiq_asserted` and
`bcm2837_mmio_read(a)` for every address other than `AUX_MU_IO_REG` and
`AUX_MU_LSR_REG` leave the whole board state as it is, so a second such read
returns the same value; under the BCM2837 register order this covers
`IRQ_BASIC_PENDING`, `IRQ_PENDING_1`, `AUX_IRQ`, `AUX_MU_IIR_REG` and
`AUX_MU_STAT_REG`. -/
theorem read_purity (C : Config) (s : bcm2837_state) (a : Nat)
    (h1 : a ≠ C.AUX_MU_IO_REG) (h2 : a ≠ C.AUX_MU_LSR_REG) :
    (bcm2837_mmio_read C s a).2 = s ∧
    bcm2837_mmio_read C (bcm2837_mmio_read C s a).2 a = bcm2837_mmio_read C s a ∧
    (bcm2837_is_irq_asserted C s).2 = s ∧
    bcm2837_is_irq_asserted C (bcm2837_is_irq_asserted C s).2 = bcm2837_is_irq_asserted C s ∧
    (bcm2837_is_fiq_asserted s).2 = s ∧
    (C.WF → ∀ r ∈ [C.IRQ_BASIC_PENDING, C.IRQ_PENDING_1, C.AUX_IRQ, C.AUX_MU_IIR_REG,
        C.AUX_MU_STAT_REG],
      (bcm2837_mmio_read C s r).2 = s) := by
  have hr := mmio_read_pure C s a h1 h2
  have hi : (bcm2837_is_irq_asserted C s).2 = s := intctrl_read_pure C s _
  refine ⟨hr, by rw [hr], hi, by rw [hi], rfl, ?_⟩
  intro hC r hmem
  unfold Config.WF at hC
  simp only [List.mem_cons, List.mem_singleton, List.not_mem_nil, or_false] at hmem
  apply mmio_read_pure <;> omega

theorem read_purity_witness :
    let C : Config := bcm2837_config
    let s : bcm2837_state :=
      { initial_state with aux := { initial_state.aux with
          aux_enables := 1, mu_rx_overrun := 1, mu_rx_fifo := ⟨[0x41]⟩ } }
    (bcm2837_mmio_read C s C.AUX_MU_STAT_REG).2 = s ∧
    bcm2837_mmio_read C (bcm2837_mmio_read C s C.AUX_MU_STAT_REG).2 C.AUX_MU_STAT_REG =
      bcm2837_mmio_read C s C.AUX_MU_STAT_REG := by
  intro C s
  have h := read_purity C s C.AUX_MU_STAT_REG (by decide) (by decide)
  exact ⟨h.1, h.2.1⟩

end Bcm2837
